import Mathlib

/-!
# Rewards artifact pipeline of the smartnode (`shared/services/rewards/files.go`)

A shallow embedding of `LocalFile` and `saveJSONArtifacts`.

* Go strings are `String`, byte slices are lists of naturals, Go `error`s are their messages.
* The filesystem, the rewards payload held by the caller and a log of the calls that were
  made form the `World` that every operation threads through.
* Library functions and declarations that live outside the embedded file (the payloads'
  `Serialize`, the zstd encoder, `singleFileDirIPFSCid`, `cid.Cid.String`, the path getters of
  the smartnode configuration and `os.WriteFile`) are the fields of `Env`.
-/

namespace Rewards

/-- A Go byte slice. -/
abbrev Bytes := List Nat

/-- The `cid.Cid` of go-cid: a struct around one string. -/
structure Cid where
  str : String
deriving DecidableEq, Repr

/-- The zero value `cid.Cid{}`. -/
def Cid.zero : Cid := ⟨""⟩

/-- Modelled from the spec: `IMinipoolPerformanceFile` is declared outside the embedded file;
the spec describes the performance artifact as per-node performance records with no outbound
references, so its state is an opaque record content. -/
structure MinipoolPerformanceFile where
  records : Bytes
deriving DecidableEq, Repr

/-- Modelled from the spec: `IRewardsFile` is declared outside the embedded file; the spec gives
the rewards artifact a header with the cycle `Index` and a mutable `PerformanceFileCID` string.
`GetMinipoolPerformanceFile()` is the field `minipoolPerformanceFile`, the rest of the payload is
the opaque `body`. -/
structure RewardsFile where
  index : Nat
  minipoolPerformanceFileCID : String
  body : Bytes
  minipoolPerformanceFile : MinipoolPerformanceFile
deriving DecidableEq, Repr

/-- The method `SetMinipoolPerformanceFileCID` of the rewards payload. -/
def RewardsFile.SetMinipoolPerformanceFileCID (r : RewardsFile) (cid : String) : RewardsFile :=
  { r with minipoolPerformanceFileCID := cid }

/-- A filesystem: the content of the file at each path, if there is one. -/
abbrev FS := String → Option Bytes

/-- What one call of `os.WriteFile` did, as decided by the operating system: it either
succeeded, or failed with a message and left the named file in some state (`none`: no file). -/
inductive WriteOutcome where
  | done
  | failed (msg : String) (left : Option Bytes)
deriving DecidableEq, Repr

/-- Which payload a `LocalFile` wraps. The wrapper holds a reference, so the payload's state is
read from the world when it is serialized. -/
inductive Payload where
  | minipoolPerformance
  | rewards
deriving DecidableEq, Repr

/-- The calls a run makes, in order: `Serialize` of a payload, `os.WriteFile`, and
`SetMinipoolPerformanceFileCID` of the rewards payload. -/
inductive Event where
  | serialize (payload : Payload)
  | writeFile (path : String) (data : Bytes)
  | setMinipoolPerformanceFileCID (cid : String)
deriving DecidableEq, Repr

/-- Everything `files.go` calls and does not define. -/
structure Env where
  /-- `Serialize` of the rewards payload, a function of its state. -/
  serializeRewards : RewardsFile → Except String Bytes
  /-- `Serialize` of the minipool performance payload. -/
  serializePerformance : MinipoolPerformanceFile → Except String Bytes
  /-- `encoder.EncodeAll` of the zstd encoder at `SpeedBestCompression`. -/
  encodeAll : Bytes → Bytes
  /-- `singleFileDirIPFSCid(data, filename)`. -/
  singleFileDirIPFSCid : Bytes → String → Except String Cid
  /-- `cid.Cid.String`. -/
  cidString : Cid → String
  /-- `smartnode.GetMinipoolPerformancePath(index, true)`. -/
  getMinipoolPerformancePath : Nat → String
  /-- `smartnode.GetRewardsTreePath(index, true, config.RewardsExtensionJSON)`. -/
  getRewardsTreePath : Nat → String
  /-- The operating system behind `os.WriteFile(path, data, 0644)`. -/
  osWriteFile : FS → String → Bytes → WriteOutcome

/-- Modelled from the spec: `config.RewardsTreeIpfsExtension` is declared outside the embedded
file; it is the fixed compressed-file extension, which the comments of
`CreateCompressedFileAndCid` give as `.zst`. -/
def RewardsTreeIpfsExtension : String := ".zst"

/-- The state the operations act on. -/
structure World where
  fs : FS
  rewardsFile : RewardsFile
  trace : List Event

/-- Replace the content of one path. -/
def FS.put (fs : FS) (path : String) (content : Option Bytes) : FS :=
  fun p => if p = path then content else fs p

/-- The call `os.WriteFile(path, data, 0644)`: on success the file holds `data`; on failure the
file is left as the operating system left it. Other paths are not touched. -/
def osWriteFile (env : Env) (w : World) (path : String) (data : Bytes) : Option String × World :=
  match env.osWriteFile w.fs path data with
  | .done =>
    (none, { w with fs := w.fs.put path (some data),
                    trace := w.trace ++ [Event.writeFile path data] })
  | .failed msg left =>
    (some msg, { w with fs := w.fs.put path left,
                        trace := w.trace ++ [Event.writeFile path data] })

/-- `os.IsPathSeparator` on Unix. -/
def isPathSeparator (c : Char) : Bool := c == '/'

/-- `filepath.Base` on Unix, on the characters of the path. The list is handled reversed:
trailing separators are stripped, then the last element is what precedes the next separator. -/
def baseChars (path : List Char) : List Char :=
  if path = [] then ['.'] else
  let stripped := path.reverse.dropWhile isPathSeparator
  let last := (stripped.takeWhile (fun c => !isPathSeparator c)).reverse
  if last = [] then ['/'] else last

/-- `filepath.Base`. -/
def Base (path : String) : String := String.mk (baseChars path.data)

/-- The call `lf.f.Serialize()` of the wrapped payload, on the current state of the rewards
payload (which holds the performance payload). -/
def Payload.Serialize (env : Env) (p : Payload) (r : RewardsFile) : Except String Bytes :=
  match p with
  | .minipoolPerformance => env.serializePerformance r.minipoolPerformanceFile
  | .rewards => env.serializeRewards r

/-- `LocalFile[T]`. -/
structure LocalFile where
  f : Payload
  fullPath : String
deriving DecidableEq, Repr

/-- `NewLocalFile`. -/
def NewLocalFile (ilf : Payload) (fullpath : String) : LocalFile :=
  { f := ilf, fullPath := fullpath }

/-- `LocalFile.Serialize`. -/
def LocalFile.Serialize (env : Env) (lf : LocalFile) (w : World) : Except String Bytes × World :=
  (lf.f.Serialize env w.rewardsFile, { w with trace := w.trace ++ [Event.serialize lf.f] })

/-- `LocalFile.Write`. -/
def LocalFile.Write (env : Env) (lf : LocalFile) (w : World) : Except String Bytes × World :=
  match lf.Serialize env w with
  | (.error err, w1) => (.error ("error serializing file: " ++ err), w1)
  | (.ok data, w1) =>
    match osWriteFile env w1 lf.fullPath data with
    | (some err, w2) => (.error ("error writing file to " ++ lf.fullPath ++ ": " ++ err), w2)
    | (none, w2) => (.ok data, w2)

/-- `LocalFile.Path`. -/
def LocalFile.Path (lf : LocalFile) : String := lf.fullPath

/-- `LocalFile.FileName`. -/
def LocalFile.FileName (lf : LocalFile) : String := Base lf.Path

/-- `LocalFile.CreateCompressedFileAndCid`: the returned path, cid and error (`none` is `nil`). -/
def LocalFile.CreateCompressedFileAndCid (env : Env) (lf : LocalFile) (w : World) :
    (String × Cid × Option String) × World :=
  match lf.Serialize env w with
  | (.error err, w1) => (("", Cid.zero, some ("error serializing file: " ++ err)), w1)
  | (.ok data, w1) =>
    let compressedBytes := env.encodeAll data
    let filename := lf.fullPath ++ RewardsTreeIpfsExtension
    match env.singleFileDirIPFSCid compressedBytes (Base filename) with
    | .error err => ((filename, Cid.zero, some ("error calculating CID: " ++ err)), w1)
    | .ok c =>
      match osWriteFile env w1 filename compressedBytes with
      | (some err, w2) =>
        ((filename, Cid.zero, some ("error writing file to " ++ lf.fullPath ++ ": " ++ err)), w2)
      | (none, w2) => ((filename, c, none), w2)

/-- A Go `map[string]cid.Cid`, as its entries in the order the keys were first stored. -/
abbrev CidMap := List (String × Cid)

/-- The lookup `m[k]`. -/
def CidMap.get (m : CidMap) (k : String) : Option Cid :=
  match m with
  | [] => none
  | (k1, v1) :: rest => if k1 = k then some v1 else CidMap.get rest k

/-- The assignment `m[k] = v`. -/
def CidMap.set (m : CidMap) (k : String) (v : Cid) : CidMap :=
  match m with
  | [] => [(k, v)]
  | (k1, v1) :: rest => if k1 = k then (k, v) :: rest else (k1, v1) :: CidMap.set rest k v

/-- The keys of the map. -/
def CidMap.keys (m : CidMap) : List String := m.map Prod.fst

/-- The local variables of `saveJSONArtifacts`: `primaryCid` (`none` is the nil pointer) and
`out`. -/
structure Locals where
  primaryCid : Option Cid
  out : CidMap
deriving DecidableEq, Repr

/-- The body of the loop of `saveJSONArtifacts` for the file `f` at index `i`: the error it
returns with, if any, and the locals and world it leaves. -/
def loopBody (env : Env) (nodeTrusted : Bool) (i : Nat) (f : LocalFile) (l : Locals)
    (w : World) : Option String × Locals × World :=
  match f.Write env w with
  | (.error err, w1) => (some ("error saving " ++ f.Path ++ ": " ++ err), l, w1)
  | (.ok data, w1) =>
    match env.singleFileDirIPFSCid data f.FileName with
    | .error err =>
      (some ("error calculating cid for saved file " ++ f.Path ++ ": " ++ err), l, w1)
    | .ok c =>
      let out1 := l.out.set f.FileName c
      if !nodeTrusted then
        (none, { l with out := out1 },
          { w1 with rewardsFile := w1.rewardsFile.SetMinipoolPerformanceFileCID "---",
                    trace := w1.trace ++ [Event.setMinipoolPerformanceFileCID "---"] })
      else
        match f.CreateCompressedFileAndCid env w1 with
        | ((_, _, some err), w2) =>
          (some ("error compressing file " ++ f.Path ++ ": " ++ err), { l with out := out1 }, w2)
        | ((compressedFilePath, c2, none), w2) =>
          let out2 := out1.set (Base compressedFilePath) c2
          let w3 : World :=
            if i = 0 then
              { w2 with rewardsFile := w2.rewardsFile.SetMinipoolPerformanceFileCID
                          (env.cidString c2),
                        trace := w2.trace ++
                          [Event.setMinipoolPerformanceFileCID (env.cidString c2)] }
            else w2
          let primary := if i = 1 then some c2 else l.primaryCid
          (none, { primaryCid := primary, out := out2 }, w3)

/-- The `for i, f := range files` loop, from index `i` on. -/
def rangeLoop (env : Env) (nodeTrusted : Bool) (i : Nat) (files : List LocalFile) (l : Locals)
    (w : World) : Option String × Locals × World :=
  match files with
  | [] => (none, l, w)
  | f :: rest =>
    match loopBody env nodeTrusted i f l w with
    | (some err, l1, w1) => (some err, l1, w1)
    | (none, l1, w1) => rangeLoop env nodeTrusted (i + 1) rest l1 w1

/-- How a call of `saveJSONArtifacts` ends: it returns `(c, out, nil)`, it returns
`(cid.Cid{}, nil, err)`, or it stops with a nil pointer dereference at `*primaryCid`. -/
inductive Return where
  | ok (c : Cid) (out : CidMap)
  | error (err : String)
  | nilDereference
deriving DecidableEq, Repr

/-- A finished call: what it returned, the locals at that point and the world it left. -/
structure Exit where
  ret : Return
  locals : Locals
  world : World

/-- `saveJSONArtifacts`. -/
def saveJSONArtifacts (env : Env) (nodeTrusted : Bool) (w : World) : Exit :=
  let currentIndex := w.rewardsFile.index
  let files := [
    NewLocalFile Payload.minipoolPerformance (env.getMinipoolPerformancePath currentIndex),
    NewLocalFile Payload.rewards (env.getRewardsTreePath currentIndex) ]
  match rangeLoop env nodeTrusted 0 files { primaryCid := none, out := [] } w with
  | (some err, l, w1) => { ret := Return.error err, locals := l, world := w1 }
  | (none, l, w1) =>
    match l.primaryCid with
    | none => { ret := Return.nilDereference, locals := l, world := w1 }
    | some c => { ret := Return.ok c l.out, locals := l, world := w1 }

/-- The path of the plain performance file of a run. -/
def performancePath (env : Env) (w : World) : String :=
  env.getMinipoolPerformancePath w.rewardsFile.index

/-- The path of the plain rewards file of a run. -/
def rewardsPath (env : Env) (w : World) : String :=
  env.getRewardsTreePath w.rewardsFile.index

/-- The path of the compressed copy of the file at `path`. -/
def compressedPath (path : String) : String := path ++ RewardsTreeIpfsExtension

/-- Whether a path ends in the compressed-file extension. -/
def hasCompressedExtension (path : String) : Bool :=
  RewardsTreeIpfsExtension.data.isSuffixOf path.data

/-- The `os.WriteFile` calls of a trace, in order. -/
def writesOf (trace : List Event) : List (String × Bytes) :=
  trace.filterMap fun e =>
    match e with
    | Event.writeFile path data => some (path, data)
    | _ => none

/-- A sample environment: serialization lists the index, the characters of the
performance-file CID and the body, compression puts a zero in front, the identifier is the
filename followed by one letter for each byte, and no call fails. -/
def sampleEnv : Env where
  serializeRewards := fun r =>
    Except.ok (r.index :: (r.minipoolPerformanceFileCID.data.map Char.toNat ++ r.body))
  serializePerformance := fun p => Except.ok p.records
  encodeAll := fun b => 0 :: b
  singleFileDirIPFSCid := fun data name =>
    Except.ok ⟨name ++ ":" ++ String.mk (data.map fun n => Char.ofNat (n % 26 + 97))⟩
  cidString := fun c => c.str
  getMinipoolPerformancePath := fun _ => "data/perf.json"
  getRewardsTreePath := fun _ => "data/rewards.json"
  osWriteFile := fun _ _ _ => WriteOutcome.done

/-- A sample start: an empty filesystem and a rewards payload for cycle 5 that carries a stale
performance-file CID. -/
def sampleWorld : World where
  fs := fun _ => none
  rewardsFile :=
    { index := 5, minipoolPerformanceFileCID := "stale", body := [7],
      minipoolPerformanceFile := { records := [1, 2] } }
  trace := []

/-- The identifier the privileged sample run returns. -/
def samplePrimary : Cid := ⟨"rewards.json.zst:afixkyuclhguslmgtuvh"⟩

/-- The identifier map the privileged sample run returns. -/
def sampleOut : CidMap :=
  [("perf.json", ⟨"perf.json:bc"⟩),
   ("perf.json.zst", ⟨"perf.json.zst:abc"⟩),
   ("rewards.json", ⟨"rewards.json:fixkyuclhguslmgtuvh"⟩),
   ("rewards.json.zst", ⟨"rewards.json.zst:afixkyuclhguslmgtuvh"⟩)]

/-- The sample environment with a rewards payload that cannot be serialized. -/
def brokenSerializeEnv : Env :=
  { sampleEnv with serializeRewards := fun _ => Except.error "unsupported value" }

/-- The sample environment with an identifier computation that fails. -/
def brokenCidEnv : Env :=
  { sampleEnv with singleFileDirIPFSCid := fun _ _ => Except.error "encoding failed" }

/-- The sample environment on a disk that fills up while the plain rewards file is written:
that write fails and leaves an empty file. -/
def fullDiskEnv : Env :=
  { sampleEnv with
    osWriteFile := fun _ path _ =>
      if path = "data/rewards.json" then WriteOutcome.failed "no space left on device" (some [])
      else WriteOutcome.done }

/-- Another sample start for the same cycle: the same payload but for another stale
performance-file CID, on a filesystem that already holds files at the rewards paths, with
earlier calls in the log. -/
def sampleWorldOther : World where
  fs := fun p =>
    if p = "data/rewards.json" then some [9, 9]
    else if p = "data/rewards.json.zst" then some [8]
    else none
  rewardsFile :=
    { index := 5, minipoolPerformanceFileCID := "another", body := [7],
      minipoolPerformanceFile := { records := [1, 2] } }
  trace := [Event.serialize Payload.rewards]

/-- What a privileged run that gets through every step did: the bytes `d0`, `d1` of the two
payloads, the identifiers `c0`, `c1` of the plain files and `z0`, `z1` of the compressed ones. -/
structure TrustedRun (env : Env) (w : World) (e : Exit) (d0 d1 : Bytes) (c0 z0 c1 z1 : Cid) :
    Prop where
  serPerf : env.serializePerformance w.rewardsFile.minipoolPerformanceFile = Except.ok d0
  cidPerf : env.singleFileDirIPFSCid d0 (Base (performancePath env w)) = Except.ok c0
  cidPerfZ : env.singleFileDirIPFSCid (env.encodeAll d0)
    (Base (compressedPath (performancePath env w))) = Except.ok z0
  serRewards : env.serializeRewards
    (w.rewardsFile.SetMinipoolPerformanceFileCID (env.cidString z0)) = Except.ok d1
  cidRewards : env.singleFileDirIPFSCid d1 (Base (rewardsPath env w)) = Except.ok c1
  cidRewardsZ : env.singleFileDirIPFSCid (env.encodeAll d1)
    (Base (compressedPath (rewardsPath env w))) = Except.ok z1
  out : e.locals.out = (((CidMap.set [] (Base (performancePath env w)) c0).set
    (Base (compressedPath (performancePath env w))) z0).set (Base (rewardsPath env w)) c1).set
    (Base (compressedPath (rewardsPath env w))) z1
  ret : e.ret = Return.ok z1 e.locals.out
  fs : e.world.fs = (((w.fs.put (performancePath env w) (some d0)).put
    (compressedPath (performancePath env w)) (some (env.encodeAll d0))).put
    (rewardsPath env w) (some d1)).put
    (compressedPath (rewardsPath env w)) (some (env.encodeAll d1))
  rewardsFile : e.world.rewardsFile =
    w.rewardsFile.SetMinipoolPerformanceFileCID (env.cidString z0)
  trace : e.world.trace = w.trace ++
    [Event.serialize Payload.minipoolPerformance,
     Event.writeFile (performancePath env w) d0,
     Event.serialize Payload.minipoolPerformance,
     Event.writeFile (compressedPath (performancePath env w)) (env.encodeAll d0),
     Event.setMinipoolPerformanceFileCID (env.cidString z0),
     Event.serialize Payload.rewards,
     Event.writeFile (rewardsPath env w) d1,
     Event.serialize Payload.rewards,
     Event.writeFile (compressedPath (rewardsPath env w)) (env.encodeAll d1)]

/-- What a non-privileged run that gets through every step did: the bytes `d0`, `d1` of the two
payloads and the identifiers `c0`, `c1` of the plain files. -/
structure UntrustedRun (env : Env) (w : World) (e : Exit) (d0 d1 : Bytes) (c0 c1 : Cid) :
    Prop where
  serPerf : env.serializePerformance w.rewardsFile.minipoolPerformanceFile = Except.ok d0
  cidPerf : env.singleFileDirIPFSCid d0 (Base (performancePath env w)) = Except.ok c0
  serRewards : env.serializeRewards
    (w.rewardsFile.SetMinipoolPerformanceFileCID "---") = Except.ok d1
  cidRewards : env.singleFileDirIPFSCid d1 (Base (rewardsPath env w)) = Except.ok c1
  out : e.locals.out =
    (CidMap.set [] (Base (performancePath env w)) c0).set (Base (rewardsPath env w)) c1
  primaryCid : e.locals.primaryCid = none
  ret : e.ret = Return.nilDereference
  fs : e.world.fs =
    (w.fs.put (performancePath env w) (some d0)).put (rewardsPath env w) (some d1)
  rewardsFile : e.world.rewardsFile = w.rewardsFile.SetMinipoolPerformanceFileCID "---"
  trace : e.world.trace = w.trace ++
    [Event.serialize Payload.minipoolPerformance,
     Event.writeFile (performancePath env w) d0,
     Event.setMinipoolPerformanceFileCID "---",
     Event.serialize Payload.rewards,
     Event.writeFile (rewardsPath env w) d1,
     Event.setMinipoolPerformanceFileCID "---"]

/-- The plain steps for the file `f` succeed on the filesystem `fs` with the rewards payload
in state `r`: its payload serializes to `d`, the operating system accepts the write of `d` to
its path, and the identifier of `d` under its filename is `c`. -/
structure PlainSaved (env : Env) (fs : FS) (r : RewardsFile) (f : LocalFile) (d : Bytes)
    (c : Cid) : Prop where
  serialize : f.f.Serialize env r = Except.ok d
  write : env.osWriteFile fs f.fullPath d = WriteOutcome.done
  cid : env.singleFileDirIPFSCid d (Base f.fullPath) = Except.ok c

/-- The compressed steps for the file `f`, after its plain file was written with the bytes `d`
on the filesystem `fs`, succeed: the identifier of the compressed bytes under the compressed
filename is `z`, and the operating system accepts the write of the compressed bytes. -/
structure CompressedSaved (env : Env) (fs : FS) (f : LocalFile) (d : Bytes) (z : Cid) :
    Prop where
  cid : env.singleFileDirIPFSCid (env.encodeAll d)
    (Base (f.fullPath ++ RewardsTreeIpfsExtension)) = Except.ok z
  write : env.osWriteFile (fs.put f.fullPath (some d))
    (f.fullPath ++ RewardsTreeIpfsExtension) (env.encodeAll d) = WriteOutcome.done

/-- A step for the file `f` fails, every step for `f` before it having succeeded, when the
steps start on the filesystem `fs` with the rewards payload in state `r`. The indices say what
the spec asks of the run in that case: the error it returns, the filesystem it leaves (nothing
is written after the failing step and nothing written before it is undone; a failed write
leaves its own file as the operating system left it) and the calls made for `f`, the failing
step being the last of them. -/
inductive FailsAt (env : Env) (nodeTrusted : Bool) (f : LocalFile) (fs : FS)
    (r : RewardsFile) : String → FS → List Event → Prop where
  | serialize (e : String) (hs : f.f.Serialize env r = Except.error e) :
    FailsAt env nodeTrusted f fs r
      ("error saving " ++ f.fullPath ++ ": " ++ ("error serializing file: " ++ e))
      fs
      [Event.serialize f.f]
  | write (d : Bytes) (msg : String) (left : Option Bytes)
      (hs : f.f.Serialize env r = Except.ok d)
      (hw : env.osWriteFile fs f.fullPath d = WriteOutcome.failed msg left) :
    FailsAt env nodeTrusted f fs r
      ("error saving " ++ f.fullPath ++ ": " ++
        ("error writing file to " ++ f.fullPath ++ ": " ++ msg))
      (fs.put f.fullPath left)
      [Event.serialize f.f, Event.writeFile f.fullPath d]
  | cid (d : Bytes) (e : String)
      (hs : f.f.Serialize env r = Except.ok d)
      (hw : env.osWriteFile fs f.fullPath d = WriteOutcome.done)
      (hc : env.singleFileDirIPFSCid d (Base f.fullPath) = Except.error e) :
    FailsAt env nodeTrusted f fs r
      ("error calculating cid for saved file " ++ f.fullPath ++ ": " ++ e)
      (fs.put f.fullPath (some d))
      [Event.serialize f.f, Event.writeFile f.fullPath d]
  | compressedCid (d : Bytes) (c : Cid) (e : String) (ht : nodeTrusted = true)
      (hp : PlainSaved env fs r f d c)
      (hz : env.singleFileDirIPFSCid (env.encodeAll d)
        (Base (f.fullPath ++ RewardsTreeIpfsExtension)) = Except.error e) :
    FailsAt env nodeTrusted f fs r
      ("error compressing file " ++ f.fullPath ++ ": " ++ ("error calculating CID: " ++ e))
      (fs.put f.fullPath (some d))
      [Event.serialize f.f, Event.writeFile f.fullPath d, Event.serialize f.f]
  | compressedWrite (d : Bytes) (c z : Cid) (msg : String) (left : Option Bytes)
      (ht : nodeTrusted = true) (hp : PlainSaved env fs r f d c)
      (hz : env.singleFileDirIPFSCid (env.encodeAll d)
        (Base (f.fullPath ++ RewardsTreeIpfsExtension)) = Except.ok z)
      (hwz : env.osWriteFile (fs.put f.fullPath (some d))
        (f.fullPath ++ RewardsTreeIpfsExtension) (env.encodeAll d)
        = WriteOutcome.failed msg left) :
    FailsAt env nodeTrusted f fs r
      ("error compressing file " ++ f.fullPath ++ ": " ++
        ("error writing file to " ++ f.fullPath ++ ": " ++ msg))
      ((fs.put f.fullPath (some d)).put (f.fullPath ++ RewardsTreeIpfsExtension) left)
      [Event.serialize f.f, Event.writeFile f.fullPath d, Event.serialize f.f,
       Event.writeFile (f.fullPath ++ RewardsTreeIpfsExtension) (env.encodeAll d)]

/-- The call ended by returning the error `err`, leaving exactly the filesystem `fs`, the
rewards payload `r` and the call log `trace`. -/
structure Aborted (e : Exit) (err : String) (fs : FS) (r : RewardsFile) (trace : List Event) :
    Prop where
  ret : e.ret = Return.error err
  fs : e.world.fs = fs
  rewardsFile : e.world.rewardsFile = r
  trace : e.world.trace = trace

/-- Every step of a non-privileged run succeeded: both serializations, both file writes (each
on the filesystem as the steps before left it) and both identifier computations. -/
structure UntrustedSteps (env : Env) (w : World) (d0 d1 : Bytes) (c0 c1 : Cid) : Prop where
  serPerf : env.serializePerformance w.rewardsFile.minipoolPerformanceFile = Except.ok d0
  writePerf : env.osWriteFile w.fs (performancePath env w) d0 = WriteOutcome.done
  cidPerf : env.singleFileDirIPFSCid d0 (Base (performancePath env w)) = Except.ok c0
  serRewards : env.serializeRewards
    (w.rewardsFile.SetMinipoolPerformanceFileCID "---") = Except.ok d1
  writeRewards : env.osWriteFile (w.fs.put (performancePath env w) (some d0))
    (rewardsPath env w) d1 = WriteOutcome.done
  cidRewards : env.singleFileDirIPFSCid d1 (Base (rewardsPath env w)) = Except.ok c1

/-- Every step of a privileged run succeeded: the serializations, the four file writes (each
on the filesystem as the steps before left it) and the four identifier computations. -/
structure TrustedSteps (env : Env) (w : World) (d0 d1 : Bytes) (c0 z0 c1 z1 : Cid) : Prop where
  serPerf : env.serializePerformance w.rewardsFile.minipoolPerformanceFile = Except.ok d0
  writePerf : env.osWriteFile w.fs (performancePath env w) d0 = WriteOutcome.done
  cidPerf : env.singleFileDirIPFSCid d0 (Base (performancePath env w)) = Except.ok c0
  cidPerfZ : env.singleFileDirIPFSCid (env.encodeAll d0)
    (Base (compressedPath (performancePath env w))) = Except.ok z0
  writePerfZ : env.osWriteFile (w.fs.put (performancePath env w) (some d0))
    (compressedPath (performancePath env w)) (env.encodeAll d0) = WriteOutcome.done
  serRewards : env.serializeRewards
    (w.rewardsFile.SetMinipoolPerformanceFileCID (env.cidString z0)) = Except.ok d1
  writeRewards : env.osWriteFile
    ((w.fs.put (performancePath env w) (some d0)).put
      (compressedPath (performancePath env w)) (some (env.encodeAll d0)))
    (rewardsPath env w) d1 = WriteOutcome.done
  cidRewards : env.singleFileDirIPFSCid d1 (Base (rewardsPath env w)) = Except.ok c1
  cidRewardsZ : env.singleFileDirIPFSCid (env.encodeAll d1)
    (Base (compressedPath (rewardsPath env w))) = Except.ok z1
  writeRewardsZ : env.osWriteFile
    (((w.fs.put (performancePath env w) (some d0)).put
      (compressedPath (performancePath env w)) (some (env.encodeAll d0))).put
      (rewardsPath env w) (some d1))
    (compressedPath (rewardsPath env w)) (env.encodeAll d1) = WriteOutcome.done

end Rewards

/-!
# Input validation of the command line (`shared/utils/cli/validation.go`)

Go strings are `String` (so valid UTF-8), `*big.Int` values are integers, and a returned
`error` is its message, `none` or `Except.ok` standing for `nil`.
-/

namespace Cli

/-- `MinDAOMemberIDLength`. -/
def MinDAOMemberIDLength : Nat := 3

/-- `ValidateBool`: the returned value and error. `toLower` is `strings.ToLower`. -/
def ValidateBool (toLower : String → String) (name value : String) : Bool × Option String :=
  let val := toLower value
  if !(val == "true" || val == "yes" || val == "false" || val == "no") then
    (false, some ("Invalid " ++ name ++ " '" ++ value ++
      "' - valid values are 'true', 'yes', 'false' and 'no'"))
  else if val == "true" || val == "yes" then
    (true, none)
  else
    (false, none)

/-- The lower-casing of `strings.ToLower` on the letters `A` to `Z`, other characters kept. -/
def asciiToLower (s : String) : String := String.mk (s.data.map Char.toLower)

/-- The value of a run of decimal digits, most significant first, after the digits `acc`;
`none` when a character is not a decimal digit. -/
def scanDigits : List Char → Nat → Option Nat
  | [], acc => some acc
  | c :: cs, acc =>
    if '0' ≤ c ∧ c ≤ '9' then scanDigits cs (10 * acc + (c.toNat - 48)) else none

/-- An unsigned decimal number: at least one digit and nothing else. -/
def scanNat (cs : List Char) : Option Nat :=
  if cs = [] then none else scanDigits cs 0

/-- `new(big.Int).SetString(value, 10)` of math/big: an optional sign followed by at least one
decimal digit, the whole string being consumed; `none` when `ok` is false. -/
def SetString (value : String) : Option Int :=
  match value.data with
  | '-' :: rest => (scanNat rest).map fun n => -(n : Int)
  | '+' :: rest => (scanNat rest).map fun n => (n : Int)
  | cs => (scanNat cs).map fun n => (n : Int)

/-- The decimal digits of a natural number, most significant first, `0` for zero. -/
def natString (n : Nat) : List Char :=
  if n = 0 then ['0'] else (Nat.digits 10 n).reverse.map Nat.digitChar

/-- `(*big.Int).String` of math/big: the decimal representation, with a minus sign for a
negative value. -/
def bigString (z : Int) : String :=
  match z with
  | Int.ofNat n => String.mk (natString n)
  | Int.negSucc n => String.mk ('-' :: natString (n + 1))

/-- `ValidateWeiAmount`. -/
def ValidateWeiAmount (name value : String) : Except String Int :=
  match SetString value with
  | none => Except.error ("Invalid " ++ name ++ " '" ++ value ++ "'")
  | some val => Except.ok val

/-- `ValidateDepositWeiAmount`. -/
def ValidateDepositWeiAmount (name value : String) : Except String Int :=
  match ValidateWeiAmount name value with
  | Except.error err => Except.error err
  | Except.ok val =>
    let ether := String.mk (List.replicate 18 '0')
    if !(bigString val == "0" || bigString val == "16" ++ ether
        || bigString val == "32" ++ ether) then
      Except.error ("Invalid " ++ name ++ " '" ++ value ++
        "' - valid values are 0, 16 and 32 ether")
    else
      Except.ok val

/-- `unicode.IsSpace`: the code points with the White_Space property. -/
def isSpace (c : Char) : Bool :=
  let n := c.toNat
  (9 ≤ n && n ≤ 13) || n == 32 || n == 0x85 || n == 0xA0 || n == 0x1680 ||
    (0x2000 ≤ n && n ≤ 0x200A) || n == 0x2028 || n == 0x2029 || n == 0x202F ||
    n == 0x205F || n == 0x3000

/-- `strings.TrimSpace`: the string without its leading and trailing white space. -/
def TrimSpace (s : String) : String :=
  String.mk ((s.data.dropWhile isSpace).rdropWhile isSpace)

/-- `ValidateDAOMemberID`: the returned string and error; `len` counts bytes. -/
def ValidateDAOMemberID (name value : String) : String × Option String :=
  let val := TrimSpace value
  if val.utf8ByteSize < MinDAOMemberIDLength then
    ("", some ("Invalid " ++ name ++ " '" ++ val ++ "' - must be at least " ++
      Nat.repr MinDAOMemberIDLength ++ " characters long"))
  else
    (val, none)

end Cli

namespace Rewards

/-! ## The steps of a run -/

theorem Write_ok {env : Env} {lf : LocalFile} {w w' : World} {data : Bytes}
    (h : lf.Write env w = (Except.ok data, w')) :
    lf.f.Serialize env w.rewardsFile = Except.ok data ∧
    env.osWriteFile w.fs lf.fullPath data = WriteOutcome.done ∧
    w' = { fs := w.fs.put lf.fullPath (some data), rewardsFile := w.rewardsFile,
           trace := w.trace ++ [Event.serialize lf.f, Event.writeFile lf.fullPath data] } := by
  unfold LocalFile.Write LocalFile.Serialize osWriteFile at h
  cases hs : lf.f.Serialize env w.rewardsFile with
  | error e => simp [hs] at h
  | ok d =>
    simp only [hs] at h
    cases hw : env.osWriteFile w.fs lf.fullPath d with
    | failed msg left => simp [hw] at h
    | done =>
      simp only [hw, Prod.mk.injEq, Except.ok.injEq] at h
      obtain ⟨rfl, rfl⟩ := h
      simp [hw]

theorem Create_ok {env : Env} {lf : LocalFile} {w w' : World} {p : String} {c : Cid}
    (h : lf.CreateCompressedFileAndCid env w = ((p, c, none), w')) :
    ∃ data, lf.f.Serialize env w.rewardsFile = Except.ok data ∧
      env.singleFileDirIPFSCid (env.encodeAll data)
        (Base (lf.fullPath ++ RewardsTreeIpfsExtension)) = Except.ok c ∧
      env.osWriteFile w.fs (lf.fullPath ++ RewardsTreeIpfsExtension) (env.encodeAll data)
        = WriteOutcome.done ∧
      p = lf.fullPath ++ RewardsTreeIpfsExtension ∧
      w' = { fs := w.fs.put (lf.fullPath ++ RewardsTreeIpfsExtension)
                     (some (env.encodeAll data)),
             rewardsFile := w.rewardsFile,
             trace := w.trace ++ [Event.serialize lf.f,
               Event.writeFile (lf.fullPath ++ RewardsTreeIpfsExtension)
                 (env.encodeAll data)] } := by
  unfold LocalFile.CreateCompressedFileAndCid LocalFile.Serialize osWriteFile at h
  cases hs : lf.f.Serialize env w.rewardsFile with
  | error e => simp [hs] at h
  | ok d =>
    simp only [hs] at h
    cases hc : env.singleFileDirIPFSCid (env.encodeAll d)
        (Base (lf.fullPath ++ RewardsTreeIpfsExtension)) with
    | error e => simp [hc] at h
    | ok c1 =>
      simp only [hc] at h
      cases hw : env.osWriteFile w.fs (lf.fullPath ++ RewardsTreeIpfsExtension)
          (env.encodeAll d) with
      | failed msg left => simp [hw] at h
      | done =>
        simp only [hw, Prod.mk.injEq] at h
        obtain ⟨⟨rfl, rfl, -⟩, rfl⟩ := h
        exact ⟨d, rfl, hc, hw, rfl, by simp⟩

/-- The calls behind an iteration of a privileged run that does not return. -/
theorem loopBody_trusted_calls {env : Env} {i : Nat} {f : LocalFile} {l l' : Locals}
    {w w' : World} (h : loopBody env true i f l w = (none, l', w')) :
    ∃ data c z w1 w2, f.Write env w = (Except.ok data, w1) ∧
      env.singleFileDirIPFSCid data f.FileName = Except.ok c ∧
      f.CreateCompressedFileAndCid env w1
        = ((f.fullPath ++ RewardsTreeIpfsExtension, z, none), w2) ∧
      l' = { primaryCid := if i = 1 then some z else l.primaryCid,
             out := (l.out.set f.FileName c).set
                      (Base (f.fullPath ++ RewardsTreeIpfsExtension)) z } ∧
      w' = (if i = 0 then
              { w2 with rewardsFile :=
                          w2.rewardsFile.SetMinipoolPerformanceFileCID (env.cidString z),
                        trace := w2.trace ++
                          [Event.setMinipoolPerformanceFileCID (env.cidString z)] }
            else w2) := by
  unfold loopBody at h
  rcases hW : f.Write env w with ⟨r, w1⟩
  cases r with
  | error e => simp [hW] at h
  | ok data =>
    simp only [hW] at h
    cases hc : env.singleFileDirIPFSCid data f.FileName with
    | error e => simp [hc] at h
    | ok c =>
      simp only [hc, Bool.not_true, Bool.false_eq_true, if_false] at h
      rcases hC : f.CreateCompressedFileAndCid env w1 with ⟨⟨p, z, e⟩, w2⟩
      cases e with
      | some e => simp [hC] at h
      | none =>
        obtain ⟨d2, -, -, -, rfl, -⟩ := Create_ok hC
        simp only [hC, Prod.mk.injEq, true_and] at h
        obtain ⟨rfl, rfl⟩ := h
        exact ⟨data, c, z, w1, w2, rfl, hc, hC, rfl, rfl⟩

theorem loopBody_trusted_ok {env : Env} {i : Nat} {f : LocalFile} {l l' : Locals}
    {w w' : World} (h : loopBody env true i f l w = (none, l', w')) :
    ∃ data c z, f.f.Serialize env w.rewardsFile = Except.ok data ∧
      env.singleFileDirIPFSCid data (Base f.fullPath) = Except.ok c ∧
      env.singleFileDirIPFSCid (env.encodeAll data)
        (Base (f.fullPath ++ RewardsTreeIpfsExtension)) = Except.ok z ∧
      l' = { primaryCid := if i = 1 then some z else l.primaryCid,
             out := (l.out.set (Base f.fullPath) c).set
                      (Base (f.fullPath ++ RewardsTreeIpfsExtension)) z } ∧
      w' = { fs := (w.fs.put f.fullPath (some data)).put
                     (f.fullPath ++ RewardsTreeIpfsExtension) (some (env.encodeAll data)),
             rewardsFile := if i = 0 then
                 w.rewardsFile.SetMinipoolPerformanceFileCID (env.cidString z)
               else w.rewardsFile,
             trace := w.trace ++ [Event.serialize f.f, Event.writeFile f.fullPath data,
                 Event.serialize f.f,
                 Event.writeFile (f.fullPath ++ RewardsTreeIpfsExtension) (env.encodeAll data)]
               ++ (if i = 0 then [Event.setMinipoolPerformanceFileCID (env.cidString z)]
                   else []) } := by
  obtain ⟨data, c, z, w1, w2, hW, hc, hC, rfl, rfl⟩ := loopBody_trusted_calls h
  obtain ⟨hs, -, rfl⟩ := Write_ok hW
  obtain ⟨d2, hs2, hz, -, -, rfl⟩ := Create_ok hC
  simp only at hs2
  rw [hs] at hs2
  cases hs2
  refine ⟨data, c, z, hs, hc, hz, rfl, ?_⟩
  by_cases hi : i = 0 <;> simp [hi]

theorem loopBody_untrusted_ok {env : Env} {i : Nat} {f : LocalFile} {l l' : Locals}
    {w w' : World} (h : loopBody env false i f l w = (none, l', w')) :
    ∃ data c, f.f.Serialize env w.rewardsFile = Except.ok data ∧
      env.singleFileDirIPFSCid data (Base f.fullPath) = Except.ok c ∧
      l' = { primaryCid := l.primaryCid, out := l.out.set (Base f.fullPath) c } ∧
      w' = { fs := w.fs.put f.fullPath (some data),
             rewardsFile := w.rewardsFile.SetMinipoolPerformanceFileCID "---",
             trace := w.trace ++ [Event.serialize f.f, Event.writeFile f.fullPath data,
                 Event.setMinipoolPerformanceFileCID "---"] } := by
  unfold loopBody at h
  rcases hW : f.Write env w with ⟨r, w1⟩
  cases r with
  | error e => simp [hW] at h
  | ok data =>
    obtain ⟨hs, -, rfl⟩ := Write_ok hW
    simp only [hW, LocalFile.FileName, LocalFile.Path] at h
    cases hc : env.singleFileDirIPFSCid data (Base f.fullPath) with
    | error e => simp [hc] at h
    | ok c =>
      simp only [hc, Bool.not_false, if_true, Prod.mk.injEq, true_and] at h
      obtain ⟨rfl, rfl⟩ := h
      exact ⟨data, c, hs, hc, rfl, by simp⟩

theorem rangeLoop_two_ok {env : Env} {t : Bool} {i : Nat} {f0 f1 : LocalFile} {l l' : Locals}
    {w w' : World} (h : rangeLoop env t i [f0, f1] l w = (none, l', w')) :
    ∃ l0 w0, loopBody env t i f0 l w = (none, l0, w0) ∧
      loopBody env t (i + 1) f1 l0 w0 = (none, l', w') := by
  simp only [rangeLoop] at h
  rcases h0 : loopBody env t i f0 l w with ⟨e0, l0, w0⟩
  rw [h0] at h
  cases e0 with
  | some err => simp at h
  | none =>
    simp only at h
    rcases h1 : loopBody env t (i + 1) f1 l0 w0 with ⟨e1, l1, w1⟩
    rw [h1] at h
    cases e1 with
    | some err => simp at h
    | none =>
      simp only [Prod.mk.injEq, true_and] at h
      obtain ⟨rfl, rfl⟩ := h
      exact ⟨l0, w0, rfl, h1⟩

theorem saveJSONArtifacts_eq (env : Env) (t : Bool) (w : World) :
    saveJSONArtifacts env t w =
      match rangeLoop env t 0
        [{ f := Payload.minipoolPerformance, fullPath := performancePath env w },
         { f := Payload.rewards, fullPath := rewardsPath env w }]
        { primaryCid := none, out := [] } w with
      | (some err, l, w1) => { ret := Return.error err, locals := l, world := w1 }
      | (none, l, w1) =>
        match l.primaryCid with
        | none => { ret := Return.nilDereference, locals := l, world := w1 }
        | some c => { ret := Return.ok c l.out, locals := l, world := w1 } := rfl

theorem trusted_run {env : Env} {w : World} {c : Cid} {m : CidMap}
    (h : (saveJSONArtifacts env true w).ret = Return.ok c m) :
    ∃ d0 d1 c0 z0 c1 z1, TrustedRun env w (saveJSONArtifacts env true w) d0 d1 c0 z0 c1 z1 := by
  rw [saveJSONArtifacts_eq] at h ⊢
  rcases hR : rangeLoop env true 0
      [{ f := Payload.minipoolPerformance, fullPath := performancePath env w },
       { f := Payload.rewards, fullPath := rewardsPath env w }]
      { primaryCid := none, out := [] } w with ⟨e, l, w1⟩
  rw [hR] at h
  cases e with
  | some err => simp at h
  | none =>
    obtain ⟨l0, w0, h0, h1⟩ := rangeLoop_two_ok hR
    obtain ⟨d0, c0, z0, hs0, hc0, hz0, rfl, rfl⟩ := loopBody_trusted_ok h0
    obtain ⟨d1, c1, z1, hs1, hc1, hz1, rfl, rfl⟩ := loopBody_trusted_ok h1
    refine ⟨d0, d1, c0, z0, c1, z1, ?_⟩
    constructor
    · exact hs0
    · exact hc0
    · exact hz0
    · simpa [Payload.Serialize] using hs1
    · exact hc1
    · exact hz1
    · simp [compressedPath]
    · simp
    · simp [compressedPath]
    · simp
    · simp [compressedPath]

theorem untrusted_run {env : Env} {w : World}
    (h : ∀ err, (saveJSONArtifacts env false w).ret ≠ Return.error err) :
    ∃ d0 d1 c0 c1, UntrustedRun env w (saveJSONArtifacts env false w) d0 d1 c0 c1 := by
  rw [saveJSONArtifacts_eq] at h ⊢
  rcases hR : rangeLoop env false 0
      [{ f := Payload.minipoolPerformance, fullPath := performancePath env w },
       { f := Payload.rewards, fullPath := rewardsPath env w }]
      { primaryCid := none, out := [] } w with ⟨e, l, w1⟩
  rw [hR] at h
  cases e with
  | some err => exact absurd rfl (h err)
  | none =>
    obtain ⟨l0, w0, h0, h1⟩ := rangeLoop_two_ok hR
    obtain ⟨d0, c0, hs0, hc0, rfl, rfl⟩ := loopBody_untrusted_ok h0
    obtain ⟨d1, c1, hs1, hc1, rfl, rfl⟩ := loopBody_untrusted_ok h1
    refine ⟨d0, d1, c0, c1, ?_⟩
    constructor
    · exact hs0
    · exact hc0
    · simpa [Payload.Serialize] using hs1
    · exact hc1
    · simp
    · simp
    · simp
    · simp
    · simp [RewardsFile.SetMinipoolPerformanceFileCID]
    · simp

theorem compressedPath_ne (p : String) : compressedPath p ≠ p := by
  intro h
  have := congrArg String.length h
  simp only [compressedPath, String.length_append] at this
  have h4 : RewardsTreeIpfsExtension.length = 4 := by decide
  omega

theorem FS.put_same (fs : FS) (p : String) (c : Option Bytes) : (fs.put p c) p = c := by
  simp [FS.put]

theorem FS.put_other (fs : FS) {p q : String} (c : Option Bytes) (h : q ≠ p) :
    (fs.put p c) q = fs q := by
  simp [FS.put, h]

theorem CidMap.get_set_same (m : CidMap) (k : String) (v : Cid) :
    (m.set k v).get k = some v := by
  induction m with
  | nil => simp [CidMap.set, CidMap.get]
  | cons e rest ih =>
    obtain ⟨k1, v1⟩ := e
    by_cases hk : k1 = k
    · simp [CidMap.set, CidMap.get, hk]
    · simp [CidMap.set, CidMap.get, hk, ih]

theorem CidMap.get_set_other (m : CidMap) {k k' : String} (v : Cid) (h : k' ≠ k) :
    (m.set k v).get k' = m.get k' := by
  induction m with
  | nil => simp [CidMap.set, CidMap.get, Ne.symm h]
  | cons e rest ih =>
    obtain ⟨k1, v1⟩ := e
    by_cases hk : k1 = k
    · subst hk
      simp [CidMap.set, CidMap.get, Ne.symm h]
    · by_cases hk' : k1 = k'
      · subst hk'
        simp [CidMap.set, CidMap.get, h]
      · simp [CidMap.set, CidMap.get, hk, hk', ih]

/-- Whatever an iteration of a non-privileged run does, it appends to the call log, and every
file write it makes is to the path of its file, with the bytes its payload serializes to. -/
theorem loopBody_untrusted_writes (env : Env) (i : Nat) (f : LocalFile) (l : Locals)
    (w : World) :
    ∃ evs, (loopBody env false i f l w).2.2.trace = w.trace ++ evs ∧
      ∀ p d, Event.writeFile p d ∈ evs →
        p = f.fullPath ∧ f.f.Serialize env w.rewardsFile = Except.ok d := by
  unfold loopBody LocalFile.Write LocalFile.Serialize osWriteFile
  cases hs : f.f.Serialize env w.rewardsFile with
  | error e => exact ⟨[Event.serialize f.f], by simp, by simp⟩
  | ok data =>
    cases hw : env.osWriteFile w.fs f.fullPath data with
    | failed msg left =>
      exact ⟨[Event.serialize f.f, Event.writeFile f.fullPath data], by simp [hw],
        by simp⟩
    | done =>
      cases hc : env.singleFileDirIPFSCid data f.FileName with
      | error e =>
        exact ⟨[Event.serialize f.f, Event.writeFile f.fullPath data], by simp [hw, hc],
          by simp⟩
      | ok c =>
        exact ⟨[Event.serialize f.f, Event.writeFile f.fullPath data,
          Event.setMinipoolPerformanceFileCID "---"], by simp [hw, hc], by simp⟩

/-- Every write a non-privileged run makes to the rewards path, when the performance file has
another path, carries the serialization of the rewards payload with the sentinel CID. -/
theorem untrusted_rewards_writes (env : Env) (w : World) (data : Bytes)
    (hp : performancePath env w ≠ rewardsPath env w)
    (hd : Event.writeFile (rewardsPath env w) data
      ∈ (saveJSONArtifacts env false w).world.trace.drop w.trace.length) :
    env.serializeRewards (w.rewardsFile.SetMinipoolPerformanceFileCID "---")
      = Except.ok data := by
  rw [saveJSONArtifacts_eq] at hd
  simp only [rangeLoop] at hd
  obtain ⟨evs0, ht0, hw0⟩ := loopBody_untrusted_writes env 0
    { f := Payload.minipoolPerformance, fullPath := performancePath env w }
    { primaryCid := none, out := [] } w
  rcases h0 : loopBody env false 0
      { f := Payload.minipoolPerformance, fullPath := performancePath env w }
      { primaryCid := none, out := [] } w with ⟨e0, l0, w0⟩
  rw [h0] at hd ht0
  cases e0 with
  | some err =>
    simp only at hd ht0
    rw [ht0, List.drop_left] at hd
    exact absurd (hw0 _ _ hd).1.symm hp
  | none =>
    obtain ⟨d0, c0, -, -, rfl, rfl⟩ := loopBody_untrusted_ok h0
    obtain ⟨evs1, ht1, hw1⟩ := loopBody_untrusted_writes env (0 + 1)
      { f := Payload.rewards, fullPath := rewardsPath env w }
      { primaryCid := none, out := CidMap.set [] (Base (performancePath env w)) c0 }
      { fs := w.fs.put (performancePath env w) (some d0),
        rewardsFile := w.rewardsFile.SetMinipoolPerformanceFileCID "---",
        trace := w.trace ++ [Event.serialize Payload.minipoolPerformance,
          Event.writeFile (performancePath env w) d0,
          Event.setMinipoolPerformanceFileCID "---"] }
    have hd' : Event.writeFile (rewardsPath env w) data ∈
        [Event.serialize Payload.minipoolPerformance,
          Event.writeFile (performancePath env w) d0,
          Event.setMinipoolPerformanceFileCID "---"] ++ evs1 := by
      rcases h1 : loopBody env false (0 + 1)
        { f := Payload.rewards, fullPath := rewardsPath env w }
        { primaryCid := none, out := CidMap.set [] (Base (performancePath env w)) c0 }
        { fs := w.fs.put (performancePath env w) (some d0),
          rewardsFile := w.rewardsFile.SetMinipoolPerformanceFileCID "---",
          trace := w.trace ++ [Event.serialize Payload.minipoolPerformance,
            Event.writeFile (performancePath env w) d0,
            Event.setMinipoolPerformanceFileCID "---"] } with ⟨e1, l1, w1⟩
      rw [h1] at ht1
      simp only at ht1
      simp only [h1] at hd
      have hw1t : w1.trace = w.trace ++ ([Event.serialize Payload.minipoolPerformance,
          Event.writeFile (performancePath env w) d0,
          Event.setMinipoolPerformanceFileCID "---"] ++ evs1) := by
        rw [ht1, List.append_assoc]
      cases e1 with
      | some err =>
        simp only at hd
        rwa [hw1t, List.drop_left] at hd
      | none =>
        have hd2 : Event.writeFile (rewardsPath env w) data
            ∈ w1.trace.drop w.trace.length := by
          cases hl : l1.primaryCid <;> simpa [hl] using hd
        rwa [hw1t, List.drop_left] at hd2
    rcases List.mem_append.mp hd' with hm | hm
    · simp only [List.mem_cons, Event.writeFile.injEq, List.mem_singleton,
        List.not_mem_nil, or_false, false_or, reduceCtorEq] at hm
      exact absurd hm.1.symm hp
    · exact (hw1 _ _ hm).2

/-! ## The claims about `saveJSONArtifacts` and `LocalFile` -/

/-- C1: in a privileged run of `saveJSONArtifacts` in which every step succeeds, the plain
rewards file holds the serialization of the rewards payload whose performance-file CID is the
string form of the identifier computed over the compressed performance bytes under the
compressed filename of the performance file. -/
theorem rewards_file_carries_compressed_performance_cid (env : Env) (w : World) (c : Cid)
    (m : CidMap) (h : (saveJSONArtifacts env true w).ret = Return.ok c m) :
    ∃ perfBytes perfCid rewardsBytes,
      env.serializePerformance w.rewardsFile.minipoolPerformanceFile = Except.ok perfBytes ∧
      env.singleFileDirIPFSCid (env.encodeAll perfBytes)
        (Base (compressedPath (performancePath env w))) = Except.ok perfCid ∧
      env.serializeRewards
        { w.rewardsFile with minipoolPerformanceFileCID := env.cidString perfCid }
        = Except.ok rewardsBytes ∧
      (saveJSONArtifacts env true w).world.fs (rewardsPath env w) = some rewardsBytes := by
  obtain ⟨d0, d1, c0, z0, c1, z1, r⟩ := trusted_run h
  refine ⟨d0, z0, d1, r.serPerf, r.cidPerfZ, r.serRewards, ?_⟩
  rw [r.fs, FS.put_other _ _ (compressedPath_ne _).symm, FS.put_same]

theorem rewards_file_carries_compressed_performance_cid_witness :
    (saveJSONArtifacts sampleEnv true sampleWorld).ret = Return.ok samplePrimary sampleOut ∧
    ∃ perfBytes perfCid rewardsBytes,
      sampleEnv.serializePerformance sampleWorld.rewardsFile.minipoolPerformanceFile
        = Except.ok perfBytes ∧
      sampleEnv.singleFileDirIPFSCid (sampleEnv.encodeAll perfBytes)
        (Base (compressedPath (performancePath sampleEnv sampleWorld))) = Except.ok perfCid ∧
      sampleEnv.serializeRewards
        { sampleWorld.rewardsFile with
          minipoolPerformanceFileCID := sampleEnv.cidString perfCid }
        = Except.ok rewardsBytes ∧
      (saveJSONArtifacts sampleEnv true sampleWorld).world.fs
        (rewardsPath sampleEnv sampleWorld) = some rewardsBytes :=
  ⟨by decide,
   rewards_file_carries_compressed_performance_cid sampleEnv sampleWorld samplePrimary
     sampleOut (by decide)⟩

theorem sample_untrusted_no_error (err : String) :
    (saveJSONArtifacts sampleEnv false sampleWorld).ret ≠ Return.error err := by
  have h : (saveJSONArtifacts sampleEnv false sampleWorld).ret = Return.nilDereference := by
    decide
  rw [h]
  exact fun h' => Return.noConfusion h'

/-- C2: in a non-privileged run of `saveJSONArtifacts`, whatever the performance-file CID of
the rewards payload held before, the bytes handed to every write of the rewards file (its
path being another than that of the performance file) are the serialization of the payload
with that field equal to `"---"`; and when the run does not return an error, the plain rewards
file holds exactly that serialization and the payload is left with the field `"---"`. -/
theorem untrusted_rewards_file_carries_sentinel (env : Env) (w : World) :
    (∀ data, performancePath env w ≠ rewardsPath env w →
      Event.writeFile (rewardsPath env w) data
        ∈ (saveJSONArtifacts env false w).world.trace.drop w.trace.length →
      env.serializeRewards { w.rewardsFile with minipoolPerformanceFileCID := "---" }
        = Except.ok data) ∧
    ((∀ err, (saveJSONArtifacts env false w).ret ≠ Return.error err) →
      ∃ rewardsBytes,
        env.serializeRewards { w.rewardsFile with minipoolPerformanceFileCID := "---" }
          = Except.ok rewardsBytes ∧
        (saveJSONArtifacts env false w).world.fs (rewardsPath env w) = some rewardsBytes ∧
        (saveJSONArtifacts env false w).world.rewardsFile.minipoolPerformanceFileCID
          = "---") := by
  refine ⟨fun data hp hd => untrusted_rewards_writes env w data hp hd, fun h => ?_⟩
  obtain ⟨d0, d1, c0, c1, r⟩ := untrusted_run h
  refine ⟨d1, r.serRewards, ?_, ?_⟩
  · rw [r.fs, FS.put_same]
  · rw [r.rewardsFile]
    rfl

theorem untrusted_rewards_file_carries_sentinel_witness :
    (∀ err, (saveJSONArtifacts sampleEnv false sampleWorld).ret ≠ Return.error err) ∧
    ∃ rewardsBytes,
      sampleEnv.serializeRewards
        { sampleWorld.rewardsFile with minipoolPerformanceFileCID := "---" }
        = Except.ok rewardsBytes ∧
      (saveJSONArtifacts sampleEnv false sampleWorld).world.fs
        (rewardsPath sampleEnv sampleWorld) = some rewardsBytes ∧
      (saveJSONArtifacts sampleEnv false sampleWorld).world.rewardsFile.minipoolPerformanceFileCID
        = "---" :=
  ⟨sample_untrusted_no_error,
   (untrusted_rewards_file_carries_sentinel sampleEnv sampleWorld).2
     sample_untrusted_no_error⟩

/-- C3, as stated, fails: the privileged sample run returns an identifier that is not the one
its map holds under the plain filename of the rewards file. -/
theorem primary_cid_is_not_plain_rewards_entry :
    (saveJSONArtifacts sampleEnv true sampleWorld).ret = Return.ok samplePrimary sampleOut ∧
    CidMap.get sampleOut (Base (rewardsPath sampleEnv sampleWorld))
      = some ⟨"rewards.json:fixkyuclhguslmgtuvh"⟩ ∧
    CidMap.get sampleOut (Base (rewardsPath sampleEnv sampleWorld)) ≠ some samplePrimary := by
  decide

/-- C3, amended: in every successful run of `saveJSONArtifacts` the returned primary identifier
is the one the returned map holds under the compressed filename of the rewards file, the
identifier of the compressed rewards bytes on disk. -/
theorem primary_cid_is_compressed_rewards_entry (env : Env) (w : World) (c : Cid) (m : CidMap)
    (nodeTrusted : Bool) (h : (saveJSONArtifacts env nodeTrusted w).ret = Return.ok c m) :
    CidMap.get m (Base (compressedPath (rewardsPath env w))) = some c ∧
    ∃ compressedBytes,
      (saveJSONArtifacts env nodeTrusted w).world.fs (compressedPath (rewardsPath env w))
        = some compressedBytes ∧
      env.singleFileDirIPFSCid compressedBytes (Base (compressedPath (rewardsPath env w)))
        = Except.ok c := by
  cases nodeTrusted with
  | false =>
    have hne : ∀ err, (saveJSONArtifacts env false w).ret ≠ Return.error err := by
      intro err he
      rw [h] at he
      exact Return.noConfusion he
    obtain ⟨d0, d1, c0, c1, r⟩ := untrusted_run hne
    rw [r.ret] at h
    exact Return.noConfusion h
  | true =>
    obtain ⟨d0, d1, c0, z0, c1, z1, r⟩ := trusted_run h
    have hr := r.ret
    rw [h] at hr
    injection hr with hc hm
    subst hc
    refine ⟨?_, env.encodeAll d1, ?_, r.cidRewardsZ⟩
    · rw [hm, r.out, CidMap.get_set_same]
    · rw [r.fs, FS.put_same]

theorem primary_cid_is_compressed_rewards_entry_witness :
    (saveJSONArtifacts sampleEnv true sampleWorld).ret = Return.ok samplePrimary sampleOut ∧
    CidMap.get sampleOut (Base (compressedPath (rewardsPath sampleEnv sampleWorld)))
      = some samplePrimary ∧
    ∃ compressedBytes,
      (saveJSONArtifacts sampleEnv true sampleWorld).world.fs
        (compressedPath (rewardsPath sampleEnv sampleWorld)) = some compressedBytes ∧
      sampleEnv.singleFileDirIPFSCid compressedBytes
        (Base (compressedPath (rewardsPath sampleEnv sampleWorld))) = Except.ok samplePrimary :=
  ⟨by decide,
   primary_cid_is_compressed_rewards_entry sampleEnv sampleWorld samplePrimary sampleOut true
     (by decide)⟩

/-- C4: in a privileged run of `saveJSONArtifacts` in which every step succeeds, the first
returned value is the identifier that `CreateCompressedFileAndCid` returns for the rewards file
(called after the first iteration and the `Write` of the rewards file), and the returned map
holds it under the compressed filename of the rewards file. -/
theorem returned_cid_is_compressed_rewards_cid (env : Env) (w : World) (c : Cid) (m : CidMap)
    (h : (saveJSONArtifacts env true w).ret = Return.ok c m) :
    ∃ l0 w0 data w1,
      loopBody env true 0 (NewLocalFile Payload.minipoolPerformance (performancePath env w))
        { primaryCid := none, out := [] } w = (none, l0, w0) ∧
      (NewLocalFile Payload.rewards (rewardsPath env w)).Write env w0 = (Except.ok data, w1) ∧
      (NewLocalFile Payload.rewards (rewardsPath env w)).CreateCompressedFileAndCid env w1
        = ((compressedPath (rewardsPath env w), c, none),
           (saveJSONArtifacts env true w).world) ∧
      CidMap.get m (Base (compressedPath (rewardsPath env w))) = some c := by
  rw [saveJSONArtifacts_eq] at h ⊢
  rcases hR : rangeLoop env true 0
      [{ f := Payload.minipoolPerformance, fullPath := performancePath env w },
       { f := Payload.rewards, fullPath := rewardsPath env w }]
      { primaryCid := none, out := [] } w with ⟨e, l, w'⟩
  rw [hR] at h
  cases e with
  | some err => simp at h
  | none =>
    obtain ⟨l0, w0, h0, h1⟩ := rangeLoop_two_ok hR
    obtain ⟨data, c1, z, w1, w2, hW, -, hC, rfl, rfl⟩ := loopBody_trusted_calls h1
    simp only [zero_add, if_true, Return.ok.injEq] at h
    obtain ⟨rfl, rfl⟩ := h
    refine ⟨l0, w0, data, w1, h0, hW, ?_, ?_⟩
    · simpa [compressedPath] using hC
    · simp [compressedPath, CidMap.get_set_same]

theorem returned_cid_is_compressed_rewards_cid_witness :
    (saveJSONArtifacts sampleEnv true sampleWorld).ret = Return.ok samplePrimary sampleOut ∧
    ∃ l0 w0 data w1,
      loopBody sampleEnv true 0
        (NewLocalFile Payload.minipoolPerformance (performancePath sampleEnv sampleWorld))
        { primaryCid := none, out := [] } sampleWorld = (none, l0, w0) ∧
      (NewLocalFile Payload.rewards (rewardsPath sampleEnv sampleWorld)).Write sampleEnv w0
        = (Except.ok data, w1) ∧
      (NewLocalFile Payload.rewards
          (rewardsPath sampleEnv sampleWorld)).CreateCompressedFileAndCid sampleEnv w1
        = ((compressedPath (rewardsPath sampleEnv sampleWorld), samplePrimary, none),
           (saveJSONArtifacts sampleEnv true sampleWorld).world) ∧
      CidMap.get sampleOut (Base (compressedPath (rewardsPath sampleEnv sampleWorld)))
        = some samplePrimary :=
  ⟨by decide,
   returned_cid_is_compressed_rewards_cid sampleEnv sampleWorld samplePrimary sampleOut
     (by decide)⟩

/-- C5 fails on the code: a non-privileged run of `saveJSONArtifacts` in which both
serializations, both file writes and both identifier computations succeed does not return; it
stops at `*primaryCid`, which is still nil. -/
theorem untrusted_run_dereferences_nil (env : Env) (w : World) (d0 d1 : Bytes) (c0 c1 : Cid)
    (hs0 : env.serializePerformance w.rewardsFile.minipoolPerformanceFile = Except.ok d0)
    (hw0 : env.osWriteFile w.fs (performancePath env w) d0 = WriteOutcome.done)
    (hc0 : env.singleFileDirIPFSCid d0 (Base (performancePath env w)) = Except.ok c0)
    (hs1 : env.serializeRewards { w.rewardsFile with minipoolPerformanceFileCID := "---" }
      = Except.ok d1)
    (hw1 : env.osWriteFile (w.fs.put (performancePath env w) (some d0)) (rewardsPath env w) d1
      = WriteOutcome.done)
    (hc1 : env.singleFileDirIPFSCid d1 (Base (rewardsPath env w)) = Except.ok c1) :
    (saveJSONArtifacts env false w).ret = Return.nilDereference := by
  simp only [performancePath, rewardsPath] at hw0 hc0 hw1 hc1
  simp [saveJSONArtifacts, rangeLoop, loopBody, LocalFile.Write, LocalFile.Serialize,
    osWriteFile, Payload.Serialize, NewLocalFile, LocalFile.FileName, LocalFile.Path,
    RewardsFile.SetMinipoolPerformanceFileCID, hs0, hw0, hc0, hs1, hw1, hc1]

theorem untrusted_run_dereferences_nil_witness :
    (sampleEnv.serializePerformance sampleWorld.rewardsFile.minipoolPerformanceFile
        = Except.ok [1, 2] ∧
      sampleEnv.osWriteFile sampleWorld.fs (performancePath sampleEnv sampleWorld) [1, 2]
        = WriteOutcome.done ∧
      sampleEnv.singleFileDirIPFSCid [1, 2] (Base (performancePath sampleEnv sampleWorld))
        = Except.ok ⟨"perf.json:bc"⟩ ∧
      sampleEnv.serializeRewards
          { sampleWorld.rewardsFile with minipoolPerformanceFileCID := "---" }
        = Except.ok [5, 45, 45, 45, 7] ∧
      sampleEnv.osWriteFile
          (sampleWorld.fs.put (performancePath sampleEnv sampleWorld) (some [1, 2]))
          (rewardsPath sampleEnv sampleWorld) [5, 45, 45, 45, 7] = WriteOutcome.done ∧
      sampleEnv.singleFileDirIPFSCid [5, 45, 45, 45, 7]
          (Base (rewardsPath sampleEnv sampleWorld))
        = Except.ok ⟨"rewards.json:fttth"⟩) ∧
    (saveJSONArtifacts sampleEnv false sampleWorld).ret = Return.nilDereference :=
  ⟨⟨rfl, rfl, rfl, rfl, rfl, rfl⟩,
   untrusted_run_dereferences_nil sampleEnv sampleWorld [1, 2] [5, 45, 45, 45, 7]
     ⟨"perf.json:bc"⟩ ⟨"rewards.json:fttth"⟩ rfl rfl rfl rfl rfl rfl⟩

/-- C6: in a privileged run of `saveJSONArtifacts` in which every step succeeds, the calls are,
in order: serialize and write the plain performance file, serialize and write the compressed
performance file, set the performance-file CID of the rewards payload, serialize and write the
plain rewards file, serialize and write the compressed rewards file. -/
theorem privileged_run_call_order (env : Env) (w : World) (c : Cid) (m : CidMap)
    (h : (saveJSONArtifacts env true w).ret = Return.ok c m) :
    ∃ perfBytes perfCid rewardsBytes,
      (saveJSONArtifacts env true w).world.trace = w.trace ++
        [Event.serialize Payload.minipoolPerformance,
         Event.writeFile (performancePath env w) perfBytes,
         Event.serialize Payload.minipoolPerformance,
         Event.writeFile (compressedPath (performancePath env w)) (env.encodeAll perfBytes),
         Event.setMinipoolPerformanceFileCID (env.cidString perfCid),
         Event.serialize Payload.rewards,
         Event.writeFile (rewardsPath env w) rewardsBytes,
         Event.serialize Payload.rewards,
         Event.writeFile (compressedPath (rewardsPath env w)) (env.encodeAll rewardsBytes)] ∧
      writesOf ((saveJSONArtifacts env true w).world.trace.drop w.trace.length) =
        [(performancePath env w, perfBytes),
         (compressedPath (performancePath env w), env.encodeAll perfBytes),
         (rewardsPath env w, rewardsBytes),
         (compressedPath (rewardsPath env w), env.encodeAll rewardsBytes)] ∧
      env.serializeRewards
        { w.rewardsFile with minipoolPerformanceFileCID := env.cidString perfCid }
        = Except.ok rewardsBytes := by
  obtain ⟨d0, d1, c0, z0, c1, z1, r⟩ := trusted_run h
  refine ⟨d0, z0, d1, r.trace, ?_, r.serRewards⟩
  rw [r.trace, List.drop_left]
  simp [writesOf]

theorem privileged_run_call_order_witness :
    (saveJSONArtifacts sampleEnv true sampleWorld).ret = Return.ok samplePrimary sampleOut ∧
    ∃ perfBytes perfCid rewardsBytes,
      (saveJSONArtifacts sampleEnv true sampleWorld).world.trace = sampleWorld.trace ++
        [Event.serialize Payload.minipoolPerformance,
         Event.writeFile (performancePath sampleEnv sampleWorld) perfBytes,
         Event.serialize Payload.minipoolPerformance,
         Event.writeFile (compressedPath (performancePath sampleEnv sampleWorld))
           (sampleEnv.encodeAll perfBytes),
         Event.setMinipoolPerformanceFileCID (sampleEnv.cidString perfCid),
         Event.serialize Payload.rewards,
         Event.writeFile (rewardsPath sampleEnv sampleWorld) rewardsBytes,
         Event.serialize Payload.rewards,
         Event.writeFile (compressedPath (rewardsPath sampleEnv sampleWorld))
           (sampleEnv.encodeAll rewardsBytes)] ∧
      writesOf ((saveJSONArtifacts sampleEnv true sampleWorld).world.trace.drop
          sampleWorld.trace.length) =
        [(performancePath sampleEnv sampleWorld, perfBytes),
         (compressedPath (performancePath sampleEnv sampleWorld),
           sampleEnv.encodeAll perfBytes),
         (rewardsPath sampleEnv sampleWorld, rewardsBytes),
         (compressedPath (rewardsPath sampleEnv sampleWorld),
           sampleEnv.encodeAll rewardsBytes)] ∧
      sampleEnv.serializeRewards
        { sampleWorld.rewardsFile with
          minipoolPerformanceFileCID := sampleEnv.cidString perfCid }
        = Except.ok rewardsBytes :=
  ⟨by decide,
   privileged_run_call_order sampleEnv sampleWorld samplePrimary sampleOut (by decide)⟩

/-- C7: in a privileged successful run of `saveJSONArtifacts` whose four filenames are pairwise
distinct, the returned map has exactly the four filenames as keys, in the order the files were
written, and each maps to the identifier computed under that filename over the bytes the file
of that name holds. -/
theorem identifier_map_of_privileged_run (env : Env) (w : World) (c : Cid) (m : CidMap)
    (h : (saveJSONArtifacts env true w).ret = Return.ok c m)
    (hd : [Base (performancePath env w), Base (compressedPath (performancePath env w)),
           Base (rewardsPath env w), Base (compressedPath (rewardsPath env w))].Nodup) :
    ∃ perfBytes perfZBytes rewardsBytes rewardsZBytes perfCid perfZCid rewardsCid rewardsZCid,
      m = [(Base (performancePath env w), perfCid),
           (Base (compressedPath (performancePath env w)), perfZCid),
           (Base (rewardsPath env w), rewardsCid),
           (Base (compressedPath (rewardsPath env w)), rewardsZCid)] ∧
      (saveJSONArtifacts env true w).world.fs (performancePath env w) = some perfBytes ∧
      env.singleFileDirIPFSCid perfBytes (Base (performancePath env w))
        = Except.ok perfCid ∧
      (saveJSONArtifacts env true w).world.fs (compressedPath (performancePath env w))
        = some perfZBytes ∧
      env.singleFileDirIPFSCid perfZBytes (Base (compressedPath (performancePath env w)))
        = Except.ok perfZCid ∧
      (saveJSONArtifacts env true w).world.fs (rewardsPath env w) = some rewardsBytes ∧
      env.singleFileDirIPFSCid rewardsBytes (Base (rewardsPath env w))
        = Except.ok rewardsCid ∧
      (saveJSONArtifacts env true w).world.fs (compressedPath (rewardsPath env w))
        = some rewardsZBytes ∧
      env.singleFileDirIPFSCid rewardsZBytes (Base (compressedPath (rewardsPath env w)))
        = Except.ok rewardsZCid := by
  obtain ⟨d0, d1, c0, z0, c1, z1, r⟩ := trusted_run h
  have hr := r.ret
  rw [h] at hr
  injection hr with hc hm
  simp only [List.nodup_cons, List.mem_cons, List.mem_singleton, List.not_mem_nil, not_or,
    List.nodup_nil, not_false_eq_true, and_true] at hd
  obtain ⟨⟨n01, n02, n03⟩, ⟨n12, n13⟩, n23⟩ := hd
  have p01 : performancePath env w ≠ compressedPath (performancePath env w) :=
    fun e => n01 (congrArg Base e)
  have p02 : performancePath env w ≠ rewardsPath env w := fun e => n02 (congrArg Base e)
  have p03 : performancePath env w ≠ compressedPath (rewardsPath env w) :=
    fun e => n03 (congrArg Base e)
  have p12 : compressedPath (performancePath env w) ≠ rewardsPath env w :=
    fun e => n12 (congrArg Base e)
  have p13 : compressedPath (performancePath env w) ≠ compressedPath (rewardsPath env w) :=
    fun e => n13 (congrArg Base e)
  have p23 : rewardsPath env w ≠ compressedPath (rewardsPath env w) :=
    fun e => n23 (congrArg Base e)
  refine ⟨d0, env.encodeAll d0, d1, env.encodeAll d1, c0, z0, c1, z1, ?_, ?_, r.cidPerf, ?_,
    r.cidPerfZ, ?_, r.cidRewards, ?_, r.cidRewardsZ⟩
  · rw [hm, r.out]
    simp [CidMap.set, n01, n02, n03, n12, n13, n23]
  · rw [r.fs, FS.put_other _ _ p03, FS.put_other _ _ p02, FS.put_other _ _ p01, FS.put_same]
  · rw [r.fs, FS.put_other _ _ p13, FS.put_other _ _ p12, FS.put_same]
  · rw [r.fs, FS.put_other _ _ p23, FS.put_same]
  · rw [r.fs, FS.put_same]

theorem identifier_map_of_privileged_run_witness :
    ((saveJSONArtifacts sampleEnv true sampleWorld).ret = Return.ok samplePrimary sampleOut ∧
      [Base (performancePath sampleEnv sampleWorld),
       Base (compressedPath (performancePath sampleEnv sampleWorld)),
       Base (rewardsPath sampleEnv sampleWorld),
       Base (compressedPath (rewardsPath sampleEnv sampleWorld))].Nodup) ∧
    ∃ perfBytes perfZBytes rewardsBytes rewardsZBytes perfCid perfZCid rewardsCid rewardsZCid,
      sampleOut = [(Base (performancePath sampleEnv sampleWorld), perfCid),
           (Base (compressedPath (performancePath sampleEnv sampleWorld)), perfZCid),
           (Base (rewardsPath sampleEnv sampleWorld), rewardsCid),
           (Base (compressedPath (rewardsPath sampleEnv sampleWorld)), rewardsZCid)] ∧
      (saveJSONArtifacts sampleEnv true sampleWorld).world.fs
        (performancePath sampleEnv sampleWorld) = some perfBytes ∧
      sampleEnv.singleFileDirIPFSCid perfBytes (Base (performancePath sampleEnv sampleWorld))
        = Except.ok perfCid ∧
      (saveJSONArtifacts sampleEnv true sampleWorld).world.fs
        (compressedPath (performancePath sampleEnv sampleWorld)) = some perfZBytes ∧
      sampleEnv.singleFileDirIPFSCid perfZBytes
        (Base (compressedPath (performancePath sampleEnv sampleWorld))) = Except.ok perfZCid ∧
      (saveJSONArtifacts sampleEnv true sampleWorld).world.fs
        (rewardsPath sampleEnv sampleWorld) = some rewardsBytes ∧
      sampleEnv.singleFileDirIPFSCid rewardsBytes (Base (rewardsPath sampleEnv sampleWorld))
        = Except.ok rewardsCid ∧
      (saveJSONArtifacts sampleEnv true sampleWorld).world.fs
        (compressedPath (rewardsPath sampleEnv sampleWorld)) = some rewardsZBytes ∧
      sampleEnv.singleFileDirIPFSCid rewardsZBytes
        (Base (compressedPath (rewardsPath sampleEnv sampleWorld))) = Except.ok rewardsZCid :=
  ⟨⟨by decide, by decide⟩,
   identifier_map_of_privileged_run sampleEnv sampleWorld samplePrimary sampleOut (by decide)
     (by decide)⟩

/-- C8, as stated, fails: the map built by the non-privileged sample run has two entries, one
for the plain performance file and one for the plain rewards file. -/
theorem untrusted_map_has_two_entries :
    (saveJSONArtifacts sampleEnv false sampleWorld).locals.out
      = [("perf.json", ⟨"perf.json:bc"⟩), ("rewards.json", ⟨"rewards.json:fttth"⟩)] ∧
    (saveJSONArtifacts sampleEnv false sampleWorld).locals.out.length ≠ 1 := by
  decide

/-- C8, amended: the map built by a non-privileged run of `saveJSONArtifacts` that does not
return an error holds the identifier of the plain performance file under its filename and the
identifier of the plain rewards file under its filename, and nothing else: two entries when
the two filenames differ. -/
theorem untrusted_map_has_plain_entries (env : Env) (w : World)
    (h : ∀ err, (saveJSONArtifacts env false w).ret ≠ Return.error err) :
    ∃ perfBytes rewardsBytes perfCid rewardsCid,
      (saveJSONArtifacts env false w).world.fs (rewardsPath env w) = some rewardsBytes ∧
      env.serializePerformance w.rewardsFile.minipoolPerformanceFile = Except.ok perfBytes ∧
      env.singleFileDirIPFSCid perfBytes (Base (performancePath env w))
        = Except.ok perfCid ∧
      env.singleFileDirIPFSCid rewardsBytes (Base (rewardsPath env w))
        = Except.ok rewardsCid ∧
      (saveJSONArtifacts env false w).locals.out =
        (if Base (performancePath env w) = Base (rewardsPath env w) then
          [(Base (rewardsPath env w), rewardsCid)]
        else
          [(Base (performancePath env w), perfCid), (Base (rewardsPath env w), rewardsCid)]) := by
  obtain ⟨d0, d1, c0, c1, r⟩ := untrusted_run h
  refine ⟨d0, d1, c0, c1, ?_, r.serPerf, r.cidPerf, r.cidRewards, ?_⟩
  · rw [r.fs, FS.put_same]
  · rw [r.out]
    by_cases hn : Base (performancePath env w) = Base (rewardsPath env w) <;>
      simp [CidMap.set, hn]

theorem untrusted_map_has_plain_entries_witness :
    (∀ err, (saveJSONArtifacts sampleEnv false sampleWorld).ret ≠ Return.error err) ∧
    ∃ perfBytes rewardsBytes perfCid rewardsCid,
      (saveJSONArtifacts sampleEnv false sampleWorld).world.fs
        (rewardsPath sampleEnv sampleWorld) = some rewardsBytes ∧
      sampleEnv.serializePerformance sampleWorld.rewardsFile.minipoolPerformanceFile
        = Except.ok perfBytes ∧
      sampleEnv.singleFileDirIPFSCid perfBytes (Base (performancePath sampleEnv sampleWorld))
        = Except.ok perfCid ∧
      sampleEnv.singleFileDirIPFSCid rewardsBytes (Base (rewardsPath sampleEnv sampleWorld))
        = Except.ok rewardsCid ∧
      (saveJSONArtifacts sampleEnv false sampleWorld).locals.out =
        (if Base (performancePath sampleEnv sampleWorld)
            = Base (rewardsPath sampleEnv sampleWorld) then
          [(Base (rewardsPath sampleEnv sampleWorld), rewardsCid)]
        else
          [(Base (performancePath sampleEnv sampleWorld), perfCid),
           (Base (rewardsPath sampleEnv sampleWorld), rewardsCid)]) :=
  ⟨sample_untrusted_no_error,
   untrusted_map_has_plain_entries sampleEnv sampleWorld sample_untrusted_no_error⟩

/-- C9: a non-privileged run of `saveJSONArtifacts` that does not return an error, with distinct
performance and rewards paths that do not themselves end in the compressed-file extension,
makes exactly two file writes, the plain performance file and the plain rewards file; every
other path, and so every path with the compressed-file extension, keeps its content. -/
theorem untrusted_run_writes_two_plain_files (env : Env) (w : World)
    (h : ∀ err, (saveJSONArtifacts env false w).ret ≠ Return.error err)
    (hp : performancePath env w ≠ rewardsPath env w)
    (hx0 : hasCompressedExtension (performancePath env w) = false)
    (hx1 : hasCompressedExtension (rewardsPath env w) = false) :
    ∃ perfBytes rewardsBytes,
      writesOf ((saveJSONArtifacts env false w).world.trace.drop w.trace.length) =
        [(performancePath env w, perfBytes), (rewardsPath env w, rewardsBytes)] ∧
      (saveJSONArtifacts env false w).world.fs (performancePath env w) = some perfBytes ∧
      (saveJSONArtifacts env false w).world.fs (rewardsPath env w) = some rewardsBytes ∧
      (∀ q, q ≠ performancePath env w → q ≠ rewardsPath env w →
        (saveJSONArtifacts env false w).world.fs q = w.fs q) ∧
      (∀ q, hasCompressedExtension q = true →
        (saveJSONArtifacts env false w).world.fs q = w.fs q) := by
  obtain ⟨d0, d1, c0, c1, r⟩ := untrusted_run h
  have hother : ∀ q, q ≠ performancePath env w → q ≠ rewardsPath env w →
      (saveJSONArtifacts env false w).world.fs q = w.fs q := by
    intro q h0 h1
    rw [r.fs, FS.put_other _ _ h1, FS.put_other _ _ h0]
  refine ⟨d0, d1, ?_, ?_, ?_, hother, ?_⟩
  · rw [r.trace, List.drop_left]
    simp [writesOf]
  · rw [r.fs, FS.put_other _ _ hp, FS.put_same]
  · rw [r.fs, FS.put_same]
  · intro q hq
    apply hother
    · rintro rfl
      rw [hq] at hx0
      exact Bool.noConfusion hx0
    · rintro rfl
      rw [hq] at hx1
      exact Bool.noConfusion hx1

theorem untrusted_run_writes_two_plain_files_witness :
    ((∀ err, (saveJSONArtifacts sampleEnv false sampleWorld).ret ≠ Return.error err) ∧
      performancePath sampleEnv sampleWorld ≠ rewardsPath sampleEnv sampleWorld ∧
      hasCompressedExtension (performancePath sampleEnv sampleWorld) = false ∧
      hasCompressedExtension (rewardsPath sampleEnv sampleWorld) = false) ∧
    ∃ perfBytes rewardsBytes,
      writesOf ((saveJSONArtifacts sampleEnv false sampleWorld).world.trace.drop
          sampleWorld.trace.length) =
        [(performancePath sampleEnv sampleWorld, perfBytes),
         (rewardsPath sampleEnv sampleWorld, rewardsBytes)] ∧
      (saveJSONArtifacts sampleEnv false sampleWorld).world.fs
        (performancePath sampleEnv sampleWorld) = some perfBytes ∧
      (saveJSONArtifacts sampleEnv false sampleWorld).world.fs
        (rewardsPath sampleEnv sampleWorld) = some rewardsBytes ∧
      (∀ q, q ≠ performancePath sampleEnv sampleWorld → q ≠ rewardsPath sampleEnv sampleWorld →
        (saveJSONArtifacts sampleEnv false sampleWorld).world.fs q = sampleWorld.fs q) ∧
      (∀ q, hasCompressedExtension q = true →
        (saveJSONArtifacts sampleEnv false sampleWorld).world.fs q = sampleWorld.fs q) :=
  ⟨⟨sample_untrusted_no_error, by decide, by decide, by decide⟩,
   untrusted_run_writes_two_plain_files sampleEnv sampleWorld sample_untrusted_no_error
     (by decide) (by decide) (by decide)⟩

/-- C10: when the payload of a `LocalFile` serializes and the operating system accepts the
compressed write, `CreateCompressedFileAndCid` returns the path `fullPath + extension`; and
with the identifier of the compressed bytes computed, it returns that identifier, no error, and
leaves the file at that path holding exactly the compression of the serialized bytes. -/
theorem CreateCompressedFileAndCid_result (env : Env) (lf : LocalFile) (w : World)
    (data : Bytes) (hs : lf.f.Serialize env w.rewardsFile = Except.ok data)
    (hw : env.osWriteFile w.fs (lf.fullPath ++ RewardsTreeIpfsExtension) (env.encodeAll data)
      = WriteOutcome.done) :
    (lf.CreateCompressedFileAndCid env w).1.1 = lf.fullPath ++ RewardsTreeIpfsExtension ∧
    ∀ c, env.singleFileDirIPFSCid (env.encodeAll data)
        (Base (lf.fullPath ++ RewardsTreeIpfsExtension)) = Except.ok c →
      (lf.CreateCompressedFileAndCid env w).1
        = (lf.fullPath ++ RewardsTreeIpfsExtension, c, none) ∧
      (lf.CreateCompressedFileAndCid env w).2.fs (lf.fullPath ++ RewardsTreeIpfsExtension)
        = some (env.encodeAll data) := by
  constructor
  · cases hc : env.singleFileDirIPFSCid (env.encodeAll data)
        (Base (lf.fullPath ++ RewardsTreeIpfsExtension)) <;>
      simp [LocalFile.CreateCompressedFileAndCid, LocalFile.Serialize, osWriteFile, hs, hw, hc]
  · intro c hc
    simp [LocalFile.CreateCompressedFileAndCid, LocalFile.Serialize, osWriteFile, hs, hw, hc,
      FS.put]

theorem CreateCompressedFileAndCid_result_witness :
    ((NewLocalFile Payload.rewards "data/rewards.json").f.Serialize sampleEnv
        sampleWorld.rewardsFile = Except.ok [5, 115, 116, 97, 108, 101, 7] ∧
      sampleEnv.osWriteFile sampleWorld.fs
        ((NewLocalFile Payload.rewards "data/rewards.json").fullPath
          ++ RewardsTreeIpfsExtension)
        (sampleEnv.encodeAll [5, 115, 116, 97, 108, 101, 7]) = WriteOutcome.done) ∧
    ((NewLocalFile Payload.rewards "data/rewards.json").CreateCompressedFileAndCid sampleEnv
        sampleWorld).1.1
      = (NewLocalFile Payload.rewards "data/rewards.json").fullPath
          ++ RewardsTreeIpfsExtension ∧
    ∀ c, sampleEnv.singleFileDirIPFSCid (sampleEnv.encodeAll [5, 115, 116, 97, 108, 101, 7])
        (Base ((NewLocalFile Payload.rewards "data/rewards.json").fullPath
          ++ RewardsTreeIpfsExtension)) = Except.ok c →
      ((NewLocalFile Payload.rewards "data/rewards.json").CreateCompressedFileAndCid sampleEnv
          sampleWorld).1
        = ((NewLocalFile Payload.rewards "data/rewards.json").fullPath
            ++ RewardsTreeIpfsExtension, c, none) ∧
      ((NewLocalFile Payload.rewards "data/rewards.json").CreateCompressedFileAndCid sampleEnv
          sampleWorld).2.fs
          ((NewLocalFile Payload.rewards "data/rewards.json").fullPath
            ++ RewardsTreeIpfsExtension)
        = some (sampleEnv.encodeAll [5, 115, 116, 97, 108, 101, 7]) :=
  ⟨⟨rfl, rfl⟩,
   CreateCompressedFileAndCid_result sampleEnv (NewLocalFile Payload.rewards "data/rewards.json")
     sampleWorld [5, 115, 116, 97, 108, 101, 7] rfl rfl⟩

theorem baseChars_ne_nil (p : List Char) : baseChars p ≠ [] := by
  unfold baseChars
  split
  · simp
  · simp only
    split
    · simp
    · assumption

theorem baseChars_append_extension (q : List Char) (c : Char)
    (hc : isPathSeparator c = false) :
    baseChars ((q ++ [c]) ++ RewardsTreeIpfsExtension.data)
      = baseChars (q ++ [c]) ++ RewardsTreeIpfsExtension.data := by
  have ht : isPathSeparator 't' = false := by decide
  have hs : isPathSeparator 's' = false := by decide
  have hz : isPathSeparator 'z' = false := by decide
  have hd : isPathSeparator '.' = false := by decide
  simp [baseChars, RewardsTreeIpfsExtension, List.dropWhile, List.takeWhile, ht, hs, hz, hd, hc]

theorem baseChars_separator_extension (q : List Char) (c : Char)
    (hc : isPathSeparator c = true) :
    baseChars ((q ++ [c]) ++ RewardsTreeIpfsExtension.data) = RewardsTreeIpfsExtension.data := by
  have ht : isPathSeparator 't' = false := by decide
  have hs : isPathSeparator 's' = false := by decide
  have hz : isPathSeparator 'z' = false := by decide
  have hd : isPathSeparator '.' = false := by decide
  simp [baseChars, RewardsTreeIpfsExtension, List.dropWhile, List.takeWhile, ht, hs, hz, hd, hc]

theorem Base_append_extension_iff (p : String) :
    Base (p ++ RewardsTreeIpfsExtension) = Base p ++ RewardsTreeIpfsExtension ↔
      p ≠ "" ∧ p.data.getLast? ≠ some '/' := by
  have key : Base (p ++ RewardsTreeIpfsExtension) = Base p ++ RewardsTreeIpfsExtension ↔
      baseChars (p.data ++ RewardsTreeIpfsExtension.data)
        = baseChars p.data ++ RewardsTreeIpfsExtension.data := by
    constructor
    · intro h
      have := congrArg String.data h
      simpa [Base, String.data_append] using this
    · intro h
      apply String.ext
      simpa [Base, String.data_append] using h
  rw [key]
  obtain ⟨l⟩ := p
  simp only
  rcases List.eq_nil_or_concat l with rfl | ⟨q, c, rfl⟩
  · constructor
    · intro h
      exact absurd h (by decide)
    · intro h
      exact absurd rfl h.1
  · rw [List.concat_eq_append]
    by_cases hc : isPathSeparator c = true
    · have hc' : c = '/' := by simpa [isPathSeparator] using hc
      rw [baseChars_separator_extension q c hc]
      constructor
      · intro h
        have hl := congrArg List.length h
        have hn := baseChars_ne_nil (q ++ [c])
        have : 0 < (baseChars (q ++ [c])).length := List.length_pos.mpr hn
        simp only [List.length_append] at hl
        omega
      · intro h
        exact absurd (by simp [hc']) h.2
    · have hc0 : isPathSeparator c = false := by simpa using hc
      have hc' : c ≠ '/' := by
        intro h
        rw [h] at hc0
        exact absurd hc0 (by decide)
      constructor
      · intro _
        refine ⟨?_, by simpa using hc'⟩
        intro h
        have := congrArg String.data h
        simp at this
      · intro _
        exact baseChars_append_extension q c hc0

/-- C11, as stated, fails: for the path `trees/` the identifier is computed under `.zst`, not
under `trees.zst`, and for the empty path under `.zst`, not under `..zst`. -/
theorem compressed_filename_of_degenerate_path :
    (Base ((NewLocalFile Payload.rewards "trees/").fullPath ++ RewardsTreeIpfsExtension)
        = ".zst" ∧
      (NewLocalFile Payload.rewards "trees/").FileName ++ RewardsTreeIpfsExtension
        = "trees.zst") ∧
    (Base ((NewLocalFile Payload.rewards "").fullPath ++ RewardsTreeIpfsExtension) = ".zst" ∧
      (NewLocalFile Payload.rewards "").FileName ++ RewardsTreeIpfsExtension = "..zst") ∧
    Base ((NewLocalFile Payload.rewards "trees/").fullPath ++ RewardsTreeIpfsExtension)
      ≠ (NewLocalFile Payload.rewards "trees/").FileName ++ RewardsTreeIpfsExtension := by
  decide

/-- C11, amended: the filename under which `CreateCompressedFileAndCid` computes the
identifier, `filepath.Base(fullPath + extension)`, is `FileName()` followed by the extension
exactly when the path is not empty and does not end in a path separator. -/
theorem compressed_filename_is_FileName_plus_extension (lf : LocalFile) :
    Base (lf.fullPath ++ RewardsTreeIpfsExtension) = lf.FileName ++ RewardsTreeIpfsExtension ↔
      lf.fullPath ≠ "" ∧ lf.fullPath.data.getLast? ≠ some '/' :=
  Base_append_extension_iff lf.fullPath

theorem compressed_filename_is_FileName_plus_extension_witness :
    Base ((NewLocalFile Payload.rewards "data/rewards.json").fullPath
        ++ RewardsTreeIpfsExtension)
      = (NewLocalFile Payload.rewards "data/rewards.json").FileName
        ++ RewardsTreeIpfsExtension :=
  (compressed_filename_is_FileName_plus_extension
    (NewLocalFile Payload.rewards "data/rewards.json")).mpr ⟨by decide, by decide⟩

/-- C12: when the payload of a `LocalFile` serializes and the operating system accepts the
write, `Write` returns exactly the bytes `Serialize` produced, the file at the bound path holds
exactly those bytes whatever it held before, and no other path is changed. -/
theorem Write_result (env : Env) (lf : LocalFile) (w : World) (data : Bytes)
    (hs : lf.f.Serialize env w.rewardsFile = Except.ok data)
    (hw : env.osWriteFile w.fs lf.fullPath data = WriteOutcome.done) :
    (lf.Serialize env w).1 = Except.ok data ∧
    (lf.Write env w).1 = Except.ok data ∧
    (lf.Write env w).2.fs lf.Path = some data ∧
    ∀ q, q ≠ lf.Path → (lf.Write env w).2.fs q = w.fs q := by
  refine ⟨by simp [LocalFile.Serialize, hs], ?_, ?_, ?_⟩
  · simp [LocalFile.Write, LocalFile.Serialize, osWriteFile, hs, hw]
  · simp [LocalFile.Write, LocalFile.Serialize, osWriteFile, hs, hw, FS.put, LocalFile.Path]
  · intro q hq
    simp only [LocalFile.Path] at hq
    simp [LocalFile.Write, LocalFile.Serialize, osWriteFile, hs, hw, FS.put, hq]

theorem Write_result_witness :
    ((NewLocalFile Payload.rewards "data/rewards.json").f.Serialize sampleEnv
        sampleWorld.rewardsFile = Except.ok [5, 115, 116, 97, 108, 101, 7] ∧
      sampleEnv.osWriteFile sampleWorld.fs
        (NewLocalFile Payload.rewards "data/rewards.json").fullPath
        [5, 115, 116, 97, 108, 101, 7] = WriteOutcome.done) ∧
    ((NewLocalFile Payload.rewards "data/rewards.json").Serialize sampleEnv sampleWorld).1
      = Except.ok [5, 115, 116, 97, 108, 101, 7] ∧
    ((NewLocalFile Payload.rewards "data/rewards.json").Write sampleEnv sampleWorld).1
      = Except.ok [5, 115, 116, 97, 108, 101, 7] ∧
    ((NewLocalFile Payload.rewards "data/rewards.json").Write sampleEnv sampleWorld).2.fs
        (NewLocalFile Payload.rewards "data/rewards.json").Path
      = some [5, 115, 116, 97, 108, 101, 7] ∧
    ∀ q, q ≠ (NewLocalFile Payload.rewards "data/rewards.json").Path →
      ((NewLocalFile Payload.rewards "data/rewards.json").Write sampleEnv sampleWorld).2.fs q
        = sampleWorld.fs q :=
  ⟨⟨rfl, rfl⟩,
   Write_result sampleEnv (NewLocalFile Payload.rewards "data/rewards.json") sampleWorld
     [5, 115, 116, 97, 108, 101, 7] rfl rfl⟩

/-- C18: a `LocalFile` writes nothing unless every preceding step succeeded. If `Serialize`
fails, `Write` returns an error and `CreateCompressedFileAndCid` returns an empty path with an
error, and both leave the filesystem as it was without calling `os.WriteFile`; if `Serialize`
succeeds and the identifier computation fails, `CreateCompressedFileAndCid` returns an error,
again without a write. -/
theorem LocalFile_failure_writes_nothing (env : Env) (lf : LocalFile) (w : World) :
    (∀ err, lf.f.Serialize env w.rewardsFile = Except.error err →
      ((lf.Write env w).1 = Except.error ("error serializing file: " ++ err) ∧
        (lf.Write env w).2.fs = w.fs ∧
        writesOf ((lf.Write env w).2.trace.drop w.trace.length) = []) ∧
      ((lf.CreateCompressedFileAndCid env w).1
          = ("", Cid.zero, some ("error serializing file: " ++ err)) ∧
        (lf.CreateCompressedFileAndCid env w).2.fs = w.fs ∧
        writesOf ((lf.CreateCompressedFileAndCid env w).2.trace.drop w.trace.length) = [])) ∧
    (∀ data err, lf.f.Serialize env w.rewardsFile = Except.ok data →
      env.singleFileDirIPFSCid (env.encodeAll data)
          (Base (lf.fullPath ++ RewardsTreeIpfsExtension)) = Except.error err →
      (lf.CreateCompressedFileAndCid env w).1
          = (lf.fullPath ++ RewardsTreeIpfsExtension, Cid.zero,
              some ("error calculating CID: " ++ err)) ∧
        (lf.CreateCompressedFileAndCid env w).2.fs = w.fs ∧
        writesOf ((lf.CreateCompressedFileAndCid env w).2.trace.drop w.trace.length) = []) := by
  constructor
  · intro err hs
    simp [LocalFile.Write, LocalFile.CreateCompressedFileAndCid, LocalFile.Serialize, hs,
      writesOf]
  · intro data err hs hc
    simp [LocalFile.CreateCompressedFileAndCid, LocalFile.Serialize, hs, hc, writesOf]

theorem LocalFile_failure_writes_nothing_witness :
    ((NewLocalFile Payload.rewards "data/rewards.json").f.Serialize brokenSerializeEnv
        sampleWorld.rewardsFile = Except.error "unsupported value" ∧
      ((NewLocalFile Payload.rewards "data/rewards.json").Write brokenSerializeEnv
          sampleWorld).1 = Except.error "error serializing file: unsupported value" ∧
      ((NewLocalFile Payload.rewards "data/rewards.json").CreateCompressedFileAndCid
          brokenSerializeEnv sampleWorld).1
        = ("", Cid.zero, some "error serializing file: unsupported value")) ∧
    ((NewLocalFile Payload.rewards "data/rewards.json").f.Serialize brokenCidEnv
        sampleWorld.rewardsFile = Except.ok [5, 115, 116, 97, 108, 101, 7] ∧
      ((NewLocalFile Payload.rewards "data/rewards.json").CreateCompressedFileAndCid
          brokenCidEnv sampleWorld).1
        = ("data/rewards.json.zst", Cid.zero, some "error calculating CID: encoding failed") ∧
      ((NewLocalFile Payload.rewards "data/rewards.json").CreateCompressedFileAndCid
          brokenCidEnv sampleWorld).2.fs = sampleWorld.fs) :=
  ⟨⟨rfl,
    ((LocalFile_failure_writes_nothing brokenSerializeEnv
      (NewLocalFile Payload.rewards "data/rewards.json") sampleWorld).1
        "unsupported value" rfl).1.1,
    ((LocalFile_failure_writes_nothing brokenSerializeEnv
      (NewLocalFile Payload.rewards "data/rewards.json") sampleWorld).1
        "unsupported value" rfl).2.1⟩,
   rfl,
   ((LocalFile_failure_writes_nothing brokenCidEnv
      (NewLocalFile Payload.rewards "data/rewards.json") sampleWorld).2
        [5, 115, 116, 97, 108, 101, 7] "encoding failed" rfl rfl).1,
   ((LocalFile_failure_writes_nothing brokenCidEnv
      (NewLocalFile Payload.rewards "data/rewards.json") sampleWorld).2
        [5, 115, 116, 97, 108, 101, 7] "encoding failed" rfl rfl).2.1⟩

theorem compressedPath_injective {p q : String} (h : compressedPath p = compressedPath q) :
    p = q := by
  have hd := congrArg String.data h
  simp only [compressedPath, String.data_append] at hd
  exact String.ext (List.append_cancel_right hd)

theorem trusted_ret_ok {env : Env} {w : World}
    (h : ∀ err, (saveJSONArtifacts env true w).ret ≠ Return.error err) :
    ∃ c m, (saveJSONArtifacts env true w).ret = Return.ok c m := by
  rw [saveJSONArtifacts_eq] at h ⊢
  rcases hR : rangeLoop env true 0
      [{ f := Payload.minipoolPerformance, fullPath := performancePath env w },
       { f := Payload.rewards, fullPath := rewardsPath env w }]
      { primaryCid := none, out := [] } w with ⟨e, l, w1⟩
  rw [hR] at h
  cases e with
  | some err => exact absurd rfl (h err)
  | none =>
    obtain ⟨l0, w0, h0, h1⟩ := rangeLoop_two_ok hR
    obtain ⟨d1, c1, z1, -, -, -, rfl, -⟩ := loopBody_trusted_ok h1
    exact ⟨_, _, rfl⟩

/-- C19: after a privileged successful run of `saveJSONArtifacts` whose plain and compressed
paths do not collide, each compressed file on disk is the compression of exactly the bytes of
the plain file on disk, for the performance file and for the rewards file. -/
theorem compressed_files_are_compressions_of_plain_files (env : Env) (w : World) (c : Cid)
    (m : CidMap) (h : (saveJSONArtifacts env true w).ret = Return.ok c m)
    (hp : performancePath env w ≠ rewardsPath env w)
    (h03 : performancePath env w ≠ compressedPath (rewardsPath env w))
    (h12 : compressedPath (performancePath env w) ≠ rewardsPath env w) :
    ∃ perfBytes rewardsBytes,
      (saveJSONArtifacts env true w).world.fs (performancePath env w) = some perfBytes ∧
      (saveJSONArtifacts env true w).world.fs (compressedPath (performancePath env w))
        = some (env.encodeAll perfBytes) ∧
      (saveJSONArtifacts env true w).world.fs (rewardsPath env w) = some rewardsBytes ∧
      (saveJSONArtifacts env true w).world.fs (compressedPath (rewardsPath env w))
        = some (env.encodeAll rewardsBytes) := by
  obtain ⟨d0, d1, c0, z0, c1, z1, r⟩ := trusted_run h
  have h01 : performancePath env w ≠ compressedPath (performancePath env w) :=
    (compressedPath_ne _).symm
  have h23 : rewardsPath env w ≠ compressedPath (rewardsPath env w) :=
    (compressedPath_ne _).symm
  have h13 : compressedPath (performancePath env w) ≠ compressedPath (rewardsPath env w) :=
    fun e => hp (compressedPath_injective e)
  refine ⟨d0, d1, ?_, ?_, ?_, ?_⟩
  · rw [r.fs, FS.put_other _ _ h03, FS.put_other _ _ hp, FS.put_other _ _ h01, FS.put_same]
  · rw [r.fs, FS.put_other _ _ h13, FS.put_other _ _ h12, FS.put_same]
  · rw [r.fs, FS.put_other _ _ h23, FS.put_same]
  · rw [r.fs, FS.put_same]

theorem compressed_files_are_compressions_of_plain_files_witness :
    ((saveJSONArtifacts sampleEnv true sampleWorld).ret = Return.ok samplePrimary sampleOut ∧
      performancePath sampleEnv sampleWorld ≠ rewardsPath sampleEnv sampleWorld ∧
      performancePath sampleEnv sampleWorld
        ≠ compressedPath (rewardsPath sampleEnv sampleWorld) ∧
      compressedPath (performancePath sampleEnv sampleWorld)
        ≠ rewardsPath sampleEnv sampleWorld) ∧
    ∃ perfBytes rewardsBytes,
      (saveJSONArtifacts sampleEnv true sampleWorld).world.fs
        (performancePath sampleEnv sampleWorld) = some perfBytes ∧
      (saveJSONArtifacts sampleEnv true sampleWorld).world.fs
        (compressedPath (performancePath sampleEnv sampleWorld))
        = some (sampleEnv.encodeAll perfBytes) ∧
      (saveJSONArtifacts sampleEnv true sampleWorld).world.fs
        (rewardsPath sampleEnv sampleWorld) = some rewardsBytes ∧
      (saveJSONArtifacts sampleEnv true sampleWorld).world.fs
        (compressedPath (rewardsPath sampleEnv sampleWorld))
        = some (sampleEnv.encodeAll rewardsBytes) :=
  ⟨⟨by decide, by decide, by decide, by decide⟩,
   compressed_files_are_compressions_of_plain_files sampleEnv sampleWorld samplePrimary
     sampleOut (by decide) (by decide) (by decide) (by decide)⟩

/-- C15: in every run of `saveJSONArtifacts` that does not return an error, privileged or not,
the rewards payload the caller holds afterwards serializes to exactly the bytes of the plain
rewards file on disk: its performance-file CID has the value it had when the rewards file was
serialized and written. -/
theorem rewards_payload_unchanged_after_persist (env : Env) (nodeTrusted : Bool) (w : World)
    (h : ∀ err, (saveJSONArtifacts env nodeTrusted w).ret ≠ Return.error err) :
    ∃ rewardsBytes,
      env.serializeRewards (saveJSONArtifacts env nodeTrusted w).world.rewardsFile
        = Except.ok rewardsBytes ∧
      (saveJSONArtifacts env nodeTrusted w).world.fs (rewardsPath env w) = some rewardsBytes ∧
      Event.writeFile (rewardsPath env w) rewardsBytes
        ∈ (saveJSONArtifacts env nodeTrusted w).world.trace.drop w.trace.length := by
  cases nodeTrusted with
  | false =>
    obtain ⟨d0, d1, c0, c1, r⟩ := untrusted_run h
    refine ⟨d1, ?_, ?_, ?_⟩
    · rw [r.rewardsFile]
      exact r.serRewards
    · rw [r.fs, FS.put_same]
    · rw [r.trace, List.drop_left]
      simp
  | true =>
    have hok := trusted_ret_ok h
    obtain ⟨c, m, hcm⟩ := hok
    obtain ⟨d0, d1, c0, z0, c1, z1, r⟩ := trusted_run hcm
    refine ⟨d1, ?_, ?_, ?_⟩
    · rw [r.rewardsFile]
      exact r.serRewards
    · rw [r.fs, FS.put_other _ _ (compressedPath_ne _).symm, FS.put_same]
    · rw [r.trace, List.drop_left]
      simp

theorem rewards_payload_unchanged_after_persist_witness :
    (∀ err, (saveJSONArtifacts sampleEnv false sampleWorld).ret ≠ Return.error err) ∧
    ∃ rewardsBytes,
      sampleEnv.serializeRewards (saveJSONArtifacts sampleEnv false sampleWorld).world.rewardsFile
        = Except.ok rewardsBytes ∧
      (saveJSONArtifacts sampleEnv false sampleWorld).world.fs
        (rewardsPath sampleEnv sampleWorld) = some rewardsBytes ∧
      Event.writeFile (rewardsPath sampleEnv sampleWorld) rewardsBytes
        ∈ (saveJSONArtifacts sampleEnv false sampleWorld).world.trace.drop
            sampleWorld.trace.length :=
  ⟨sample_untrusted_no_error,
   rewards_payload_unchanged_after_persist sampleEnv false sampleWorld
     sample_untrusted_no_error⟩

theorem FS.put_put_agree (f g : FS) (a b : String) (x y : Option Bytes) (p : String)
    (hp : p = a ∨ p = b) : ((f.put a x).put b y) p = ((g.put a x).put b y) p := by
  simp only [FS.put]
  split_ifs with h1 h2
  · rfl
  · rfl
  · rcases hp with h | h <;> contradiction

theorem FS.put4_agree (f g : FS) (a b c d : String) (x y z u : Option Bytes) (p : String)
    (hp : p = a ∨ p = b ∨ p = c ∨ p = d) :
    ((((f.put a x).put b y).put c z).put d u) p
      = ((((g.put a x).put b y).put c z).put d u) p := by
  simp only [FS.put]
  split_ifs with h1 h2 h3 h4
  · rfl
  · rfl
  · rfl
  · rfl
  · rcases hp with h | h | h | h <;> contradiction

theorem sample_trusted_no_error (w : World) (c : Cid) (m : CidMap)
    (h : (saveJSONArtifacts sampleEnv true w).ret = Return.ok c m) (err : String) :
    (saveJSONArtifacts sampleEnv true w).ret ≠ Return.error err := by
  rw [h]
  exact fun h' => Return.noConfusion h'

/-- C14: two runs of `saveJSONArtifacts` with the same privileged flag and configuration, on
rewards payloads that agree but for the initial performance-file CID, started on arbitrary
filesystems, and neither returning an error, make the same file writes with the same bytes,
leave the same content in every file they wrote, build the same identifier map and end the
same way, with the same returned identifier and map. -/
theorem runs_agree (env : Env) (nodeTrusted : Bool) (w1 w2 : World)
    (hi : w1.rewardsFile.index = w2.rewardsFile.index)
    (hb : w1.rewardsFile.body = w2.rewardsFile.body)
    (hp : w1.rewardsFile.minipoolPerformanceFile = w2.rewardsFile.minipoolPerformanceFile)
    (h1 : ∀ err, (saveJSONArtifacts env nodeTrusted w1).ret ≠ Return.error err)
    (h2 : ∀ err, (saveJSONArtifacts env nodeTrusted w2).ret ≠ Return.error err) :
    (saveJSONArtifacts env nodeTrusted w1).ret = (saveJSONArtifacts env nodeTrusted w2).ret ∧
    (saveJSONArtifacts env nodeTrusted w1).locals.out
      = (saveJSONArtifacts env nodeTrusted w2).locals.out ∧
    writesOf ((saveJSONArtifacts env nodeTrusted w1).world.trace.drop w1.trace.length)
      = writesOf ((saveJSONArtifacts env nodeTrusted w2).world.trace.drop w2.trace.length) ∧
    (∀ p, p ∈ (writesOf ((saveJSONArtifacts env nodeTrusted w1).world.trace.drop
          w1.trace.length)).map Prod.fst →
      (saveJSONArtifacts env nodeTrusted w1).world.fs p
        = (saveJSONArtifacts env nodeTrusted w2).world.fs p) ∧
    (saveJSONArtifacts env nodeTrusted w1).world.rewardsFile
      = (saveJSONArtifacts env nodeTrusted w2).world.rewardsFile := by
  have hset : ∀ s, w1.rewardsFile.SetMinipoolPerformanceFileCID s
      = w2.rewardsFile.SetMinipoolPerformanceFileCID s := by
    intro s
    simp [RewardsFile.SetMinipoolPerformanceFileCID, hi, hb, hp]
  have hp0 : performancePath env w1 = performancePath env w2 := by
    simp [performancePath, hi]
  have hp1 : rewardsPath env w1 = rewardsPath env w2 := by
    simp [rewardsPath, hi]
  cases nodeTrusted with
  | false =>
    obtain ⟨d0, d1, c0, c1, r1⟩ := untrusted_run h1
    obtain ⟨e0, e1, k0, k1, r2⟩ := untrusted_run h2
    have hd0 : d0 = e0 := by
      have := r1.serPerf.symm.trans (hp ▸ r2.serPerf)
      exact Except.ok.inj this
    subst hd0
    have hc0 : c0 = k0 := Except.ok.inj (r1.cidPerf.symm.trans (hp0 ▸ r2.cidPerf))
    subst hc0
    have hd1 : d1 = e1 := Except.ok.inj (r1.serRewards.symm.trans (hset _ ▸ r2.serRewards))
    subst hd1
    have hc1 : c1 = k1 := Except.ok.inj (r1.cidRewards.symm.trans (hp1 ▸ r2.cidRewards))
    subst hc1
    refine ⟨by rw [r1.ret, r2.ret], by rw [r1.out, r2.out, hp0, hp1], ?_, ?_, ?_⟩
    · rw [r1.trace, r2.trace, List.drop_left, List.drop_left, hp0, hp1]
    · intro p hmem
      rw [r1.trace, List.drop_left] at hmem
      rw [r1.fs, r2.fs, ← hp0, ← hp1]
      apply FS.put_put_agree
      simpa [writesOf] using hmem
    · rw [r1.rewardsFile, r2.rewardsFile, hset]
  | true =>
    obtain ⟨a1, m1, ha1⟩ := trusted_ret_ok h1
    obtain ⟨a2, m2, ha2⟩ := trusted_ret_ok h2
    obtain ⟨d0, d1, c0, z0, c1, z1, r1⟩ := trusted_run ha1
    obtain ⟨e0, e1, k0, y0, k1, y1, r2⟩ := trusted_run ha2
    have hd0 : d0 = e0 := Except.ok.inj (r1.serPerf.symm.trans (hp ▸ r2.serPerf))
    subst hd0
    have hc0 : c0 = k0 := Except.ok.inj (r1.cidPerf.symm.trans (hp0 ▸ r2.cidPerf))
    subst hc0
    have hz0 : z0 = y0 := Except.ok.inj (r1.cidPerfZ.symm.trans (hp0 ▸ r2.cidPerfZ))
    subst hz0
    have hd1 : d1 = e1 := Except.ok.inj (r1.serRewards.symm.trans (hset _ ▸ r2.serRewards))
    subst hd1
    have hc1 : c1 = k1 := Except.ok.inj (r1.cidRewards.symm.trans (hp1 ▸ r2.cidRewards))
    subst hc1
    have hz1 : z1 = y1 := Except.ok.inj (r1.cidRewardsZ.symm.trans (hp1 ▸ r2.cidRewardsZ))
    subst hz1
    have hout : (saveJSONArtifacts env true w1).locals.out
        = (saveJSONArtifacts env true w2).locals.out := by
      rw [r1.out, r2.out, hp0, hp1]
    refine ⟨by rw [r1.ret, r2.ret, hout], hout, ?_, ?_, ?_⟩
    · rw [r1.trace, r2.trace, List.drop_left, List.drop_left, hp0, hp1]
    · intro p hmem
      rw [r1.trace, List.drop_left] at hmem
      rw [r1.fs, r2.fs, ← hp0, ← hp1]
      apply FS.put4_agree
      simpa [writesOf] using hmem
    · rw [r1.rewardsFile, r2.rewardsFile, hset]

theorem runs_agree_witness :
    (sampleWorld.rewardsFile.index = sampleWorldOther.rewardsFile.index ∧
      sampleWorld.rewardsFile.body = sampleWorldOther.rewardsFile.body ∧
      sampleWorld.rewardsFile.minipoolPerformanceFile
        = sampleWorldOther.rewardsFile.minipoolPerformanceFile ∧
      sampleWorld.rewardsFile.minipoolPerformanceFileCID
        ≠ sampleWorldOther.rewardsFile.minipoolPerformanceFileCID ∧
      sampleWorld.fs "data/rewards.json" ≠ sampleWorldOther.fs "data/rewards.json" ∧
      (∀ err, (saveJSONArtifacts sampleEnv true sampleWorld).ret ≠ Return.error err) ∧
      (∀ err, (saveJSONArtifacts sampleEnv true sampleWorldOther).ret ≠ Return.error err)) ∧
    (saveJSONArtifacts sampleEnv true sampleWorld).ret
      = (saveJSONArtifacts sampleEnv true sampleWorldOther).ret ∧
    (saveJSONArtifacts sampleEnv true sampleWorld).locals.out
      = (saveJSONArtifacts sampleEnv true sampleWorldOther).locals.out ∧
    writesOf ((saveJSONArtifacts sampleEnv true sampleWorld).world.trace.drop
        sampleWorld.trace.length)
      = writesOf ((saveJSONArtifacts sampleEnv true sampleWorldOther).world.trace.drop
          sampleWorldOther.trace.length) ∧
    (∀ p, p ∈ (writesOf ((saveJSONArtifacts sampleEnv true sampleWorld).world.trace.drop
          sampleWorld.trace.length)).map Prod.fst →
      (saveJSONArtifacts sampleEnv true sampleWorld).world.fs p
        = (saveJSONArtifacts sampleEnv true sampleWorldOther).world.fs p) ∧
    (saveJSONArtifacts sampleEnv true sampleWorld).world.rewardsFile
      = (saveJSONArtifacts sampleEnv true sampleWorldOther).world.rewardsFile :=
  ⟨⟨rfl, rfl, rfl, by decide, by decide,
    sample_trusted_no_error sampleWorld samplePrimary sampleOut (by decide),
    sample_trusted_no_error sampleWorldOther samplePrimary sampleOut (by decide)⟩,
   runs_agree sampleEnv true sampleWorld sampleWorldOther rfl rfl rfl
     (sample_trusted_no_error sampleWorld samplePrimary sampleOut (by decide))
     (sample_trusted_no_error sampleWorldOther samplePrimary sampleOut (by decide))⟩

/-- What one iteration does in any mode and with any outcome: it appends to the call log; the
paths it writes are, in order, a prefix of the plain path and (privileged) the compressed path;
other paths keep their content; every write it made is on disk, but possibly the last call of
an iteration that returns an error; and an iteration that returns an error leaves the
rewards payload as it was. -/
theorem loopBody_effect (env : Env) (t : Bool) (i : Nat) (f : LocalFile) (l : Locals)
    (w : World) :
    ∃ evs, (loopBody env t i f l w).2.2.trace = w.trace ++ evs ∧
      (writesOf evs).map Prod.fst <+:
        (if t then [f.fullPath, f.fullPath ++ RewardsTreeIpfsExtension] else [f.fullPath]) ∧
      (∀ q, q ∉ (writesOf evs).map Prod.fst → (loopBody env t i f l w).2.2.fs q = w.fs q) ∧
      (∀ p d, (p, d) ∈ writesOf evs →
        (loopBody env t i f l w).2.2.fs p = some d ∨
        ((loopBody env t i f l w).1 ≠ none ∧ ∃ pre, evs = pre ++ [Event.writeFile p d])) ∧
      ((loopBody env t i f l w).1 ≠ none →
        (loopBody env t i f l w).2.2.rewardsFile = w.rewardsFile) := by
  have hne : f.fullPath ≠ f.fullPath ++ RewardsTreeIpfsExtension :=
    (compressedPath_ne f.fullPath).symm
  unfold loopBody LocalFile.CreateCompressedFileAndCid LocalFile.Write LocalFile.Serialize
    osWriteFile
  cases hs : f.f.Serialize env w.rewardsFile with
  | error e =>
    refine ⟨[Event.serialize f.f], by simp, ?_, by simp [writesOf], by simp [writesOf],
      by simp⟩
    simp [writesOf]
  | ok data =>
    cases hw : env.osWriteFile w.fs f.fullPath data with
    | failed msg left =>
      refine ⟨[Event.serialize f.f, Event.writeFile f.fullPath data], by simp [hw], ?_, ?_, ?_,
        by simp [hw]⟩
      · cases t
        · exact ⟨[], by simp [writesOf]⟩
        · exact ⟨[f.fullPath ++ RewardsTreeIpfsExtension], by simp [writesOf]⟩
      · intro q hq
        have hq' : q ≠ f.fullPath := by simpa [writesOf] using hq
        simp [hw, FS.put, hq']
      · intro p d hpd
        have hpd' : p = f.fullPath ∧ d = data := by simpa [writesOf] using hpd
        obtain ⟨rfl, rfl⟩ := hpd'
        exact Or.inr ⟨by simp [hw], [Event.serialize f.f], by simp⟩
    | done =>
      cases hc : env.singleFileDirIPFSCid data f.FileName with
      | error e =>
        refine ⟨[Event.serialize f.f, Event.writeFile f.fullPath data], by simp [hw, hc],
          ?_, ?_, ?_, by simp [hw, hc]⟩
        · cases t
          · exact ⟨[], by simp [writesOf]⟩
          · exact ⟨[f.fullPath ++ RewardsTreeIpfsExtension], by simp [writesOf]⟩
        · intro q hq
          have hq' : q ≠ f.fullPath := by simpa [writesOf] using hq
          simp [hw, hc, FS.put, hq']
        · intro p d hpd
          have hpd' : p = f.fullPath ∧ d = data := by simpa [writesOf] using hpd
          obtain ⟨rfl, rfl⟩ := hpd'
          exact Or.inl (by simp [hw, hc, FS.put])
      | ok c =>
        cases t with
        | false =>
          refine ⟨[Event.serialize f.f, Event.writeFile f.fullPath data,
            Event.setMinipoolPerformanceFileCID "---"], by simp [hw, hc], ?_, ?_, ?_,
            by simp [hw, hc]⟩
          · exact ⟨[], by simp [writesOf]⟩
          · intro q hq
            have hq' : q ≠ f.fullPath := by simpa [writesOf] using hq
            simp [hw, hc, FS.put, hq']
          · intro p d hpd
            have hpd' : p = f.fullPath ∧ d = data := by simpa [writesOf] using hpd
            obtain ⟨rfl, rfl⟩ := hpd'
            exact Or.inl (by simp [hw, hc, FS.put])
        | true =>
          cases hcz : env.singleFileDirIPFSCid (env.encodeAll data)
              (Base (f.fullPath ++ RewardsTreeIpfsExtension)) with
          | error e =>
            refine ⟨[Event.serialize f.f, Event.writeFile f.fullPath data,
              Event.serialize f.f], by simp [hw, hc, hs, hcz], ?_, ?_, ?_,
              by simp [hw, hc, hs, hcz]⟩
            · exact ⟨[f.fullPath ++ RewardsTreeIpfsExtension], by simp [writesOf]⟩
            · intro q hq
              have hq' : q ≠ f.fullPath := by simpa [writesOf] using hq
              simp [hw, hc, hs, hcz, FS.put, hq']
            · intro p d hpd
              have hpd' : p = f.fullPath ∧ d = data := by simpa [writesOf] using hpd
              obtain ⟨rfl, rfl⟩ := hpd'
              exact Or.inl (by simp [hw, hc, hs, hcz, FS.put])
          | ok z =>
            cases hwz : env.osWriteFile (w.fs.put f.fullPath (some data))
                (f.fullPath ++ RewardsTreeIpfsExtension) (env.encodeAll data) with
            | failed msg left =>
              refine ⟨[Event.serialize f.f, Event.writeFile f.fullPath data,
                Event.serialize f.f,
                Event.writeFile (f.fullPath ++ RewardsTreeIpfsExtension) (env.encodeAll data)],
                by simp [hw, hc, hs, hcz, hwz], ?_, ?_, ?_, by simp [hw, hc, hs, hcz, hwz]⟩
              · exact ⟨[], by simp [writesOf]⟩
              · intro q hq
                have hq' : q ≠ f.fullPath ∧ q ≠ f.fullPath ++ RewardsTreeIpfsExtension := by
                  simpa [writesOf] using hq
                simp [hw, hc, hs, hcz, hwz, FS.put, hq'.1, hq'.2]
              · intro p d hpd
                have hpd' : (p = f.fullPath ∧ d = data) ∨
                    (p = f.fullPath ++ RewardsTreeIpfsExtension ∧ d = env.encodeAll data) := by
                  simpa [writesOf] using hpd
                rcases hpd' with ⟨rfl, rfl⟩ | ⟨rfl, rfl⟩
                · exact Or.inl (by simp [hw, hc, hs, hcz, hwz, FS.put, hne])
                · exact Or.inr ⟨by simp [hw, hc, hs, hcz, hwz],
                    [Event.serialize f.f, Event.writeFile f.fullPath data,
                      Event.serialize f.f], by simp⟩
            | done =>
              refine ⟨[Event.serialize f.f, Event.writeFile f.fullPath data,
                Event.serialize f.f,
                Event.writeFile (f.fullPath ++ RewardsTreeIpfsExtension) (env.encodeAll data)]
                ++ (if i = 0 then [Event.setMinipoolPerformanceFileCID (env.cidString z)]
                    else []), ?_, ?_, ?_, ?_, by simp [hw, hc, hs, hcz, hwz]⟩
              · by_cases hi : i = 0 <;> simp [hw, hc, hs, hcz, hwz, hi]
              · exact ⟨[], by by_cases hi : i = 0 <;> simp [writesOf, hi]⟩
              · intro q hq
                have hq' : q ≠ f.fullPath ∧ q ≠ f.fullPath ++ RewardsTreeIpfsExtension := by
                  by_cases hi : i = 0 <;> simpa [writesOf, hi] using hq
                by_cases hi : i = 0 <;> simp [hw, hc, hs, hcz, hwz, FS.put, hq'.1, hq'.2, hi]
              · intro p d hpd
                have hpd' : (p = f.fullPath ∧ d = data) ∨
                    (p = f.fullPath ++ RewardsTreeIpfsExtension ∧ d = env.encodeAll data) := by
                  by_cases hi : i = 0 <;> simpa [writesOf, hi] using hpd
                rcases hpd' with ⟨rfl, rfl⟩ | ⟨rfl, rfl⟩
                · exact Or.inl (by
                    by_cases hi : i = 0 <;> simp [hw, hc, hs, hcz, hwz, FS.put, hne, hi])
                · exact Or.inl (by
                    by_cases hi : i = 0 <;> simp [hw, hc, hs, hcz, hwz, FS.put, hi])

theorem writesOf_append (a b : List Event) : writesOf (a ++ b) = writesOf a ++ writesOf b := by
  simp [writesOf, List.filterMap_append]

theorem run_of_first_error {env : Env} {t : Bool} {w w0 : World} {l0 : Locals} {e : String}
    (h0 : loopBody env t 0
      { f := Payload.minipoolPerformance, fullPath := performancePath env w }
      { primaryCid := none, out := [] } w = (some e, l0, w0)) :
    saveJSONArtifacts env t w = { ret := Return.error e, locals := l0, world := w0 } := by
  rw [saveJSONArtifacts_eq]
  simp only [rangeLoop, h0]

theorem run_of_second_error {env : Env} {t : Bool} {w w0 w1 : World} {l0 l1 : Locals}
    {e : String}
    (h0 : loopBody env t 0
      { f := Payload.minipoolPerformance, fullPath := performancePath env w }
      { primaryCid := none, out := [] } w = (none, l0, w0))
    (h1 : loopBody env t (0 + 1)
      { f := Payload.rewards, fullPath := rewardsPath env w } l0 w0 = (some e, l1, w1)) :
    saveJSONArtifacts env t w = { ret := Return.error e, locals := l1, world := w1 } := by
  rw [saveJSONArtifacts_eq]
  simp only [rangeLoop, h0, h1]

theorem run_of_no_error {env : Env} {t : Bool} {w w0 w1 : World} {l0 l1 : Locals}
    (h0 : loopBody env t 0
      { f := Payload.minipoolPerformance, fullPath := performancePath env w }
      { primaryCid := none, out := [] } w = (none, l0, w0))
    (h1 : loopBody env t (0 + 1)
      { f := Payload.rewards, fullPath := rewardsPath env w } l0 w0 = (none, l1, w1))
    (err : String) : (saveJSONArtifacts env t w).ret ≠ Return.error err := by
  rw [saveJSONArtifacts_eq]
  simp only [rangeLoop, h0, h1]
  cases l1.primaryCid <;> simp

/-- What a run that returns an error did: the paths it wrote are a prefix of the order of a
full run, other paths keep their content, and every write it made is on disk, but possibly
the last call of the run. -/
theorem error_run_effect (env : Env) (t : Bool) (w : World) (err : String)
    (h : (saveJSONArtifacts env t w).ret = Return.error err)
    (hp : performancePath env w ≠ rewardsPath env w)
    (h03 : performancePath env w ≠ compressedPath (rewardsPath env w))
    (h12 : compressedPath (performancePath env w) ≠ rewardsPath env w) :
    ∃ evs, (saveJSONArtifacts env t w).world.trace = w.trace ++ evs ∧
      (writesOf evs).map Prod.fst <+:
        (if t then [performancePath env w, compressedPath (performancePath env w),
            rewardsPath env w, compressedPath (rewardsPath env w)]
          else [performancePath env w, rewardsPath env w]) ∧
      (∀ q, q ∉ (writesOf evs).map Prod.fst → (saveJSONArtifacts env t w).world.fs q = w.fs q) ∧
      (∀ p d, (p, d) ∈ writesOf evs →
        (saveJSONArtifacts env t w).world.fs p = some d ∨
        ∃ pre, evs = pre ++ [Event.writeFile p d]) := by
  have h13 : compressedPath (performancePath env w) ≠ compressedPath (rewardsPath env w) :=
    fun e => hp (compressedPath_injective e)
  obtain ⟨evs0, ht0, hpre0, hfr0, hon0, -⟩ := loopBody_effect env t 0
    { f := Payload.minipoolPerformance, fullPath := performancePath env w }
    { primaryCid := none, out := [] } w
  rcases h0 : loopBody env t 0
      { f := Payload.minipoolPerformance, fullPath := performancePath env w }
      { primaryCid := none, out := [] } w with ⟨e0, l0, w0⟩
  simp only [h0] at ht0 hfr0 hon0
  dsimp only at hpre0
  cases e0 with
  | some err0 =>
    rw [run_of_first_error h0]
    refine ⟨evs0, ht0, ?_, hfr0, ?_⟩
    · cases t
      · exact hpre0.trans ⟨[rewardsPath env w], rfl⟩
      · exact hpre0.trans
          ⟨[rewardsPath env w, compressedPath (rewardsPath env w)], rfl⟩
    · intro p d hpd
      rcases hon0 p d hpd with hdisk | ⟨-, hlast⟩
      · exact Or.inl hdisk
      · exact Or.inr hlast
  | none =>
    obtain ⟨evs1, ht1, hpre1, hfr1, hon1, -⟩ := loopBody_effect env t (0 + 1)
      { f := Payload.rewards, fullPath := rewardsPath env w } l0 w0
    rcases h1 : loopBody env t (0 + 1)
        { f := Payload.rewards, fullPath := rewardsPath env w } l0 w0 with ⟨e1, l1, w1⟩
    simp only [h1] at ht1 hfr1 hon1
    dsimp only at hpre1
    cases e1 with
    | none => exact absurd h (run_of_no_error h0 h1 err)
    | some err1 =>
      rw [run_of_second_error h0 h1]
      cases t with
      | false =>
        obtain ⟨d0, c0, -, -, rfl, rfl⟩ := loopBody_untrusted_ok h0
        simp only [Bool.false_eq_true, if_false] at hpre1 ⊢
        have hin1 : ∀ q, q ∈ (writesOf evs1).map Prod.fst → q = rewardsPath env w := by
          intro q hq
          simpa using hpre1.subset hq
        refine ⟨[Event.serialize Payload.minipoolPerformance,
          Event.writeFile (performancePath env w) d0,
          Event.setMinipoolPerformanceFileCID "---"] ++ evs1, ?_, ?_, ?_, ?_⟩
        · rw [ht1, List.append_assoc]
        · rw [writesOf_append, List.map_append]
          have : (writesOf [Event.serialize Payload.minipoolPerformance,
              Event.writeFile (performancePath env w) d0,
              Event.setMinipoolPerformanceFileCID "---"]).map Prod.fst
              = [performancePath env w] := by simp [writesOf]
          rw [this]
          exact (List.prefix_append_right_inj _).mpr hpre1
        · intro q hq
          rw [writesOf_append, List.map_append, List.mem_append, not_or] at hq
          have hq0 : q ≠ performancePath env w := by
            have := hq.1
            simpa [writesOf] using this
          rw [hfr1 q hq.2]
          exact FS.put_other _ _ hq0
        · intro p d hpd
          rw [writesOf_append, List.mem_append] at hpd
          rcases hpd with hpd | hpd
          · have hpd' : p = performancePath env w ∧ d = d0 := by
              simpa [writesOf] using hpd
            obtain ⟨rfl, rfl⟩ := hpd'
            left
            rw [hfr1 _ (fun hq => hp (hin1 _ hq))]
            exact FS.put_same _ _ _
          · rcases hon1 p d hpd with hdisk | ⟨-, pre, hlast⟩
            · exact Or.inl hdisk
            · exact Or.inr ⟨[Event.serialize Payload.minipoolPerformance,
                Event.writeFile (performancePath env w) d0,
                Event.setMinipoolPerformanceFileCID "---"] ++ pre, by rw [hlast]; simp⟩
      | true =>
        obtain ⟨d0, c0, z0, -, -, -, rfl, rfl⟩ := loopBody_trusted_ok h0
        simp only [if_true] at hpre1 ⊢
        have hin1 : ∀ q, q ∈ (writesOf evs1).map Prod.fst →
            q = rewardsPath env w ∨ q = compressedPath (rewardsPath env w) := by
          intro q hq
          simpa [compressedPath] using hpre1.subset hq
        refine ⟨[Event.serialize Payload.minipoolPerformance,
          Event.writeFile (performancePath env w) d0,
          Event.serialize Payload.minipoolPerformance,
          Event.writeFile (compressedPath (performancePath env w)) (env.encodeAll d0),
          Event.setMinipoolPerformanceFileCID (env.cidString z0)] ++ evs1, ?_, ?_, ?_, ?_⟩
        · rw [ht1]
          simp [compressedPath]
        · rw [writesOf_append, List.map_append]
          have : (writesOf [Event.serialize Payload.minipoolPerformance,
              Event.writeFile (performancePath env w) d0,
              Event.serialize Payload.minipoolPerformance,
              Event.writeFile (compressedPath (performancePath env w)) (env.encodeAll d0),
              Event.setMinipoolPerformanceFileCID (env.cidString z0)]).map Prod.fst
              = [performancePath env w, compressedPath (performancePath env w)] := by
            simp [writesOf]
          rw [this]
          exact (List.prefix_append_right_inj _).mpr hpre1
        · intro q hq
          rw [writesOf_append, List.map_append, List.mem_append, not_or] at hq
          have hq0 : q ≠ performancePath env w ∧ q ≠ compressedPath (performancePath env w) := by
            have := hq.1
            simpa [writesOf] using this
          rw [hfr1 q hq.2]
          simp only
          rw [FS.put_other _ _ (by simpa [compressedPath] using hq0.2), FS.put_other _ _ hq0.1]
        · intro p d hpd
          rw [writesOf_append, List.mem_append] at hpd
          rcases hpd with hpd | hpd
          · have hpd' : (p = performancePath env w ∧ d = d0) ∨
                (p = compressedPath (performancePath env w) ∧ d = env.encodeAll d0) := by
              simpa [writesOf] using hpd
            left
            rcases hpd' with ⟨rfl, rfl⟩ | ⟨rfl, rfl⟩
            · rw [hfr1 _ (fun hq => (hin1 _ hq).elim hp h03)]
              simp only
              rw [FS.put_other _ _ (show performancePath env w
                  ≠ performancePath env w ++ RewardsTreeIpfsExtension from
                    (compressedPath_ne _).symm), FS.put_same]
            · rw [hfr1 _ (fun hq => (hin1 _ hq).elim h12 h13)]
              simp only
              exact FS.put_same _ _ _
          · rcases hon1 p d hpd with hdisk | ⟨-, pre, hlast⟩
            · exact Or.inl hdisk
            · exact Or.inr ⟨[Event.serialize Payload.minipoolPerformance,
                Event.writeFile (performancePath env w) d0,
                Event.serialize Payload.minipoolPerformance,
                Event.writeFile (compressedPath (performancePath env w)) (env.encodeAll d0),
                Event.setMinipoolPerformanceFileCID (env.cidString z0)] ++ pre,
                by rw [hlast]; simp⟩

/-- The file writes behind an iteration that does not return: the plain write was accepted,
and in a privileged run the compressed write too. -/
theorem loopBody_ok_writes {env : Env} {t : Bool} {i : Nat} {f : LocalFile} {l l' : Locals}
    {w w' : World} (h : loopBody env t i f l w = (none, l', w')) :
    ∃ data, f.f.Serialize env w.rewardsFile = Except.ok data ∧
      env.osWriteFile w.fs f.fullPath data = WriteOutcome.done ∧
      (t = true → env.osWriteFile (w.fs.put f.fullPath (some data))
        (f.fullPath ++ RewardsTreeIpfsExtension) (env.encodeAll data) = WriteOutcome.done) := by
  unfold loopBody at h
  rcases hW : f.Write env w with ⟨r, w1⟩
  cases r with
  | error e => simp [hW] at h
  | ok data =>
    obtain ⟨hs, hw, rfl⟩ := Write_ok hW
    refine ⟨data, hs, hw, ?_⟩
    intro ht
    subst ht
    simp only [hW] at h
    cases hc : env.singleFileDirIPFSCid data f.FileName with
    | error e => simp [hc] at h
    | ok c =>
      simp only [hc, Bool.not_true, Bool.false_eq_true, if_false] at h
      rcases hC : f.CreateCompressedFileAndCid env
          { fs := w.fs.put f.fullPath (some data), rewardsFile := w.rewardsFile,
            trace := w.trace ++ [Event.serialize f.f, Event.writeFile f.fullPath data] }
        with ⟨⟨p, z, e⟩, w2⟩
      cases e with
      | some e => simp [hC] at h
      | none =>
        obtain ⟨d2, hs2, -, hwz, -, -⟩ := Create_ok hC
        simp only at hs2 hwz
        rw [hs] at hs2
        cases hs2
        exact hwz

theorem untrusted_steps {env : Env} {w : World}
    (h : ∀ err, (saveJSONArtifacts env false w).ret ≠ Return.error err) :
    ∃ d0 d1 c0 c1, UntrustedSteps env w d0 d1 c0 c1 := by
  rcases h0 : loopBody env false 0
      { f := Payload.minipoolPerformance, fullPath := performancePath env w }
      { primaryCid := none, out := [] } w with ⟨e0, l0, w0⟩
  cases e0 with
  | some err0 => exact absurd (congrArg Exit.ret (run_of_first_error h0)) (h err0)
  | none =>
    rcases h1 : loopBody env false (0 + 1)
        { f := Payload.rewards, fullPath := rewardsPath env w } l0 w0 with ⟨e1, l1, w1⟩
    cases e1 with
    | some err1 => exact absurd (congrArg Exit.ret (run_of_second_error h0 h1)) (h err1)
    | none =>
      obtain ⟨d0, hs0, hw0, -⟩ := loopBody_ok_writes h0
      obtain ⟨d0', c0, hs0', hc0, rfl, rfl⟩ := loopBody_untrusted_ok h0
      obtain ⟨d1, hs1, hw1, -⟩ := loopBody_ok_writes h1
      obtain ⟨d1', c1, hs1', hc1, -, -⟩ := loopBody_untrusted_ok h1
      rw [hs0] at hs0'
      cases hs0'
      rw [hs1] at hs1'
      cases hs1'
      exact ⟨d0, d1, c0, c1, hs0, hw0, hc0, by simpa [Payload.Serialize] using hs1, hw1, hc1⟩

theorem trusted_steps {env : Env} {w : World}
    (h : ∀ err, (saveJSONArtifacts env true w).ret ≠ Return.error err) :
    ∃ d0 d1 c0 z0 c1 z1, TrustedSteps env w d0 d1 c0 z0 c1 z1 := by
  rcases h0 : loopBody env true 0
      { f := Payload.minipoolPerformance, fullPath := performancePath env w }
      { primaryCid := none, out := [] } w with ⟨e0, l0, w0⟩
  cases e0 with
  | some err0 => exact absurd (congrArg Exit.ret (run_of_first_error h0)) (h err0)
  | none =>
    rcases h1 : loopBody env true (0 + 1)
        { f := Payload.rewards, fullPath := rewardsPath env w } l0 w0 with ⟨e1, l1, w1⟩
    cases e1 with
    | some err1 => exact absurd (congrArg Exit.ret (run_of_second_error h0 h1)) (h err1)
    | none =>
      obtain ⟨d0, hs0, hw0, hwz0⟩ := loopBody_ok_writes h0
      obtain ⟨d0', c0, z0, hs0', hc0, hz0, rfl, rfl⟩ := loopBody_trusted_ok h0
      obtain ⟨d1, hs1, hw1, hwz1⟩ := loopBody_ok_writes h1
      obtain ⟨d1', c1, z1, hs1', hc1, hz1, -, -⟩ := loopBody_trusted_ok h1
      rw [hs0] at hs0'
      cases hs0'
      rw [hs1] at hs1'
      cases hs1'
      exact ⟨d0, d1, c0, z0, c1, z1, hs0, hw0, hc0, hz0, hwz0 rfl,
        by simpa [Payload.Serialize] using hs1, hw1, hc1, hz1, hwz1 rfl⟩

/-- When persisting the performance file fails, the run returns that error and the world is
the one the failed `Write` left. -/
theorem run_of_failed_performance_write (env : Env) (t : Bool) (w : World) (e : String)
    (h : ((NewLocalFile Payload.minipoolPerformance (performancePath env w)).Write env w).1
      = Except.error e) :
    saveJSONArtifacts env t w =
      { ret := Return.error ("error saving " ++ performancePath env w ++ ": " ++ e),
        locals := { primaryCid := none, out := [] },
        world := ((NewLocalFile Payload.minipoolPerformance
          (performancePath env w)).Write env w).2 } := by
  apply run_of_first_error
  unfold loopBody
  rcases hW : (NewLocalFile Payload.minipoolPerformance (performancePath env w)).Write env w
    with ⟨r, w1⟩
  rw [hW] at h
  simp only at h
  subst h
  simp only [NewLocalFile] at hW
  simp [hW, LocalFile.Path]

theorem Write_effect (env : Env) (lf : LocalFile) (w : World) :
    (lf.Write env w).2.rewardsFile = w.rewardsFile ∧
    (∀ q, q ≠ lf.fullPath → (lf.Write env w).2.fs q = w.fs q) ∧
    (∀ p d, (p, d) ∈ writesOf ((lf.Write env w).2.trace.drop w.trace.length) →
      p = lf.fullPath) := by
  unfold LocalFile.Write LocalFile.Serialize osWriteFile
  cases hs : lf.f.Serialize env w.rewardsFile with
  | error e => simp [writesOf]
  | ok data =>
    cases hw : env.osWriteFile w.fs lf.fullPath data with
    | failed msg left =>
      refine ⟨by simp [hw], ?_, ?_⟩
      · intro q hq
        simp [hw, FS.put, hq]
      · intro p d hpd
        have : p = lf.fullPath ∧ d = data := by simpa [hw, writesOf] using hpd
        exact this.1
    | done =>
      refine ⟨by simp [hw], ?_, ?_⟩
      · intro q hq
        simp [hw, FS.put, hq]
      · intro p d hpd
        have : p = lf.fullPath ∧ d = data := by simpa [hw, writesOf] using hpd
        exact this.1

/-- An iteration in which a step fails returns the error and leaves the filesystem and the
call log the failing step asks for; the rewards payload is as it was. -/
theorem loopBody_of_FailsAt {env : Env} {t : Bool} {f : LocalFile} {w : World} {err : String}
    {fs' : FS} {evs : List Event} (i : Nat) (l : Locals)
    (h : FailsAt env t f w.fs w.rewardsFile err fs' evs) :
    ∃ l', loopBody env t i f l w
      = (some err, l', { fs := fs', rewardsFile := w.rewardsFile, trace := w.trace ++ evs }) := by
  cases h with
  | serialize e hs =>
    exact ⟨l, by simp [loopBody, LocalFile.Write, LocalFile.Serialize, LocalFile.Path, hs]⟩
  | write d msg left hs hw =>
    exact ⟨l, by
      simp [loopBody, LocalFile.Write, LocalFile.Serialize, LocalFile.Path, osWriteFile, hs,
        hw]⟩
  | cid d e hs hw hc =>
    exact ⟨l, by
      simp [loopBody, LocalFile.Write, LocalFile.Serialize, LocalFile.Path,
        LocalFile.FileName, osWriteFile, hs, hw, hc]⟩
  | compressedCid d c e ht hp hz =>
    subst ht
    exact ⟨{ l with out := l.out.set f.FileName c }, by
      simp [loopBody, LocalFile.Write, LocalFile.Serialize, LocalFile.Path,
        LocalFile.FileName, LocalFile.CreateCompressedFileAndCid, osWriteFile, hp.serialize,
        hp.write, hp.cid, hz]⟩
  | compressedWrite d c z msg left ht hp hz hwz =>
    subst ht
    exact ⟨{ l with out := l.out.set f.FileName c }, by
      simp [loopBody, LocalFile.Write, LocalFile.Serialize, LocalFile.Path,
        LocalFile.FileName, LocalFile.CreateCompressedFileAndCid, osWriteFile, hp.serialize,
        hp.write, hp.cid, hz, hwz]⟩

/-- A non-privileged iteration whose plain steps succeed. -/
theorem loopBody_untrusted_of_saved {env : Env} {f : LocalFile} {w : World} {d : Bytes}
    {c : Cid} (i : Nat) (l : Locals) (hp : PlainSaved env w.fs w.rewardsFile f d c) :
    loopBody env false i f l w
      = (none, { l with out := l.out.set f.FileName c },
          { fs := w.fs.put f.fullPath (some d),
            rewardsFile := w.rewardsFile.SetMinipoolPerformanceFileCID "---",
            trace := w.trace ++ [Event.serialize f.f, Event.writeFile f.fullPath d,
              Event.setMinipoolPerformanceFileCID "---"] }) := by
  simp [loopBody, LocalFile.Write, LocalFile.Serialize, LocalFile.Path, LocalFile.FileName,
    osWriteFile, hp.serialize, hp.write, hp.cid]

/-- The first iteration of a privileged run whose plain and compressed steps succeed. -/
theorem loopBody_trusted_first_of_saved {env : Env} {f : LocalFile} {w : World} {d : Bytes}
    {c z : Cid} (l : Locals) (hp : PlainSaved env w.fs w.rewardsFile f d c)
    (hz : CompressedSaved env w.fs f d z) :
    loopBody env true 0 f l w
      = (none,
          { primaryCid := l.primaryCid,
            out := (l.out.set f.FileName c).set
              (Base (f.fullPath ++ RewardsTreeIpfsExtension)) z },
          { fs := (w.fs.put f.fullPath (some d)).put
              (f.fullPath ++ RewardsTreeIpfsExtension) (some (env.encodeAll d)),
            rewardsFile := w.rewardsFile.SetMinipoolPerformanceFileCID (env.cidString z),
            trace := w.trace ++ [Event.serialize f.f, Event.writeFile f.fullPath d,
              Event.serialize f.f,
              Event.writeFile (f.fullPath ++ RewardsTreeIpfsExtension) (env.encodeAll d),
              Event.setMinipoolPerformanceFileCID (env.cidString z)] }) := by
  simp [loopBody, LocalFile.Write, LocalFile.Serialize, LocalFile.Path, LocalFile.FileName,
    LocalFile.CreateCompressedFileAndCid, osWriteFile, hp.serialize, hp.write, hp.cid,
    hz.cid, hz.write]

/-- An iteration of a privileged run whose plain and compressed steps succeed. -/
theorem loopBody_trusted_of_saved {env : Env} {f : LocalFile} {w : World} {d : Bytes}
    {c z : Cid} (i : Nat) (l : Locals) (hp : PlainSaved env w.fs w.rewardsFile f d c)
    (hz : CompressedSaved env w.fs f d z) :
    ∃ l' w', loopBody env true i f l w = (none, l', w') := by
  by_cases hi : i = 0 <;>
    simp [loopBody, LocalFile.Write, LocalFile.Serialize, LocalFile.Path, LocalFile.FileName,
      LocalFile.CreateCompressedFileAndCid, osWriteFile, hp.serialize, hp.write, hp.cid,
      hz.cid, hz.write, hi]

theorem no_error_of_untrusted_steps {env : Env} {w : World} {d0 d1 : Bytes} {c0 c1 : Cid}
    (h : UntrustedSteps env w d0 d1 c0 c1) (err : String) :
    (saveJSONArtifacts env false w).ret ≠ Return.error err := by
  have h0 := loopBody_untrusted_of_saved
    (f := { f := Payload.minipoolPerformance, fullPath := performancePath env w }) (w := w)
    0 { primaryCid := none, out := [] } ⟨h.serPerf, h.writePerf, h.cidPerf⟩
  have h1 := loopBody_untrusted_of_saved
    (f := { f := Payload.rewards, fullPath := rewardsPath env w })
    (w := { fs := w.fs.put (performancePath env w) (some d0),
            rewardsFile := w.rewardsFile.SetMinipoolPerformanceFileCID "---",
            trace := w.trace ++ [Event.serialize Payload.minipoolPerformance,
              Event.writeFile (performancePath env w) d0,
              Event.setMinipoolPerformanceFileCID "---"] })
    (0 + 1)
    { primaryCid := none, out := CidMap.set [] (Base (performancePath env w)) c0 }
    ⟨h.serRewards, h.writeRewards, h.cidRewards⟩
  exact run_of_no_error h0 h1 err

theorem no_error_of_trusted_steps {env : Env} {w : World} {d0 d1 : Bytes} {c0 z0 c1 z1 : Cid}
    (h : TrustedSteps env w d0 d1 c0 z0 c1 z1) (err : String) :
    (saveJSONArtifacts env true w).ret ≠ Return.error err := by
  have h0 := loopBody_trusted_first_of_saved
    (f := { f := Payload.minipoolPerformance, fullPath := performancePath env w }) (w := w)
    { primaryCid := none, out := [] } ⟨h.serPerf, h.writePerf, h.cidPerf⟩
    ⟨h.cidPerfZ, h.writePerfZ⟩
  obtain ⟨l1, w1, h1⟩ := loopBody_trusted_of_saved
    (f := { f := Payload.rewards, fullPath := rewardsPath env w })
    (w := { fs := (w.fs.put (performancePath env w) (some d0)).put
              (performancePath env w ++ RewardsTreeIpfsExtension) (some (env.encodeAll d0)),
            rewardsFile := w.rewardsFile.SetMinipoolPerformanceFileCID (env.cidString z0),
            trace := w.trace ++ [Event.serialize Payload.minipoolPerformance,
              Event.writeFile (performancePath env w) d0,
              Event.serialize Payload.minipoolPerformance,
              Event.writeFile (performancePath env w ++ RewardsTreeIpfsExtension)
                (env.encodeAll d0),
              Event.setMinipoolPerformanceFileCID (env.cidString z0)] })
    (0 + 1)
    { primaryCid := none,
      out := (CidMap.set [] (Base (performancePath env w)) c0).set
        (Base (performancePath env w ++ RewardsTreeIpfsExtension)) z0 }
    ⟨h.serRewards, h.writeRewards, h.cidRewards⟩ ⟨h.cidRewardsZ, h.writeRewardsZ⟩
  exact run_of_no_error h0 h1 err

/-- A step failing for the performance file ends the run as that step asks. -/
theorem aborted_of_first_FailsAt {env : Env} {t : Bool} {w : World} {err : String} {fs' : FS}
    {evs : List Event}
    (h : FailsAt env t (NewLocalFile Payload.minipoolPerformance (performancePath env w))
      w.fs w.rewardsFile err fs' evs) :
    Aborted (saveJSONArtifacts env t w) err fs' w.rewardsFile (w.trace ++ evs) := by
  obtain ⟨l', h0⟩ := loopBody_of_FailsAt 0 { primaryCid := none, out := [] } h
  rw [run_of_first_error h0]
  exact ⟨rfl, rfl, rfl, rfl⟩

/-- A step failing for the rewards file of a non-privileged run, the performance file having
been saved, ends the run as that step asks. -/
theorem aborted_of_second_FailsAt_untrusted {env : Env} {w : World} {d0 : Bytes} {c0 : Cid}
    {err : String} {fs' : FS} {evs : List Event}
    (hp0 : PlainSaved env w.fs w.rewardsFile
      (NewLocalFile Payload.minipoolPerformance (performancePath env w)) d0 c0)
    (h : FailsAt env false (NewLocalFile Payload.rewards (rewardsPath env w))
      (w.fs.put (performancePath env w) (some d0))
      (w.rewardsFile.SetMinipoolPerformanceFileCID "---") err fs' evs) :
    Aborted (saveJSONArtifacts env false w) err fs'
      (w.rewardsFile.SetMinipoolPerformanceFileCID "---")
      (w.trace ++ [Event.serialize Payload.minipoolPerformance,
        Event.writeFile (performancePath env w) d0,
        Event.setMinipoolPerformanceFileCID "---"] ++ evs) := by
  have h0 := loopBody_untrusted_of_saved 0 { primaryCid := none, out := [] } hp0
  obtain ⟨l1, h1⟩ := loopBody_of_FailsAt
    (w := { fs := w.fs.put (performancePath env w) (some d0),
            rewardsFile := w.rewardsFile.SetMinipoolPerformanceFileCID "---",
            trace := w.trace ++ [Event.serialize Payload.minipoolPerformance,
              Event.writeFile (performancePath env w) d0,
              Event.setMinipoolPerformanceFileCID "---"] })
    (0 + 1)
    { primaryCid := none, out := CidMap.set [] (Base (performancePath env w)) c0 } h
  rw [run_of_second_error h0 h1]
  exact ⟨rfl, rfl, rfl, rfl⟩

/-- A step failing for the rewards file of a privileged run, the plain and the compressed
performance file having been saved, ends the run as that step asks. -/
theorem aborted_of_second_FailsAt_trusted {env : Env} {w : World} {d0 : Bytes} {c0 z0 : Cid}
    {err : String} {fs' : FS} {evs : List Event}
    (hp0 : PlainSaved env w.fs w.rewardsFile
      (NewLocalFile Payload.minipoolPerformance (performancePath env w)) d0 c0)
    (hz0 : CompressedSaved env w.fs
      (NewLocalFile Payload.minipoolPerformance (performancePath env w)) d0 z0)
    (h : FailsAt env true (NewLocalFile Payload.rewards (rewardsPath env w))
      ((w.fs.put (performancePath env w) (some d0)).put
        (compressedPath (performancePath env w)) (some (env.encodeAll d0)))
      (w.rewardsFile.SetMinipoolPerformanceFileCID (env.cidString z0)) err fs' evs) :
    Aborted (saveJSONArtifacts env true w) err fs'
      (w.rewardsFile.SetMinipoolPerformanceFileCID (env.cidString z0))
      (w.trace ++ [Event.serialize Payload.minipoolPerformance,
        Event.writeFile (performancePath env w) d0,
        Event.serialize Payload.minipoolPerformance,
        Event.writeFile (compressedPath (performancePath env w)) (env.encodeAll d0),
        Event.setMinipoolPerformanceFileCID (env.cidString z0)] ++ evs) := by
  have h0 := loopBody_trusted_first_of_saved { primaryCid := none, out := [] } hp0 hz0
  obtain ⟨l1, h1⟩ := loopBody_of_FailsAt
    (w := { fs := (w.fs.put (performancePath env w) (some d0)).put
              (compressedPath (performancePath env w)) (some (env.encodeAll d0)),
            rewardsFile := w.rewardsFile.SetMinipoolPerformanceFileCID (env.cidString z0),
            trace := w.trace ++ [Event.serialize Payload.minipoolPerformance,
              Event.writeFile (performancePath env w) d0,
              Event.serialize Payload.minipoolPerformance,
              Event.writeFile (compressedPath (performancePath env w)) (env.encodeAll d0),
              Event.setMinipoolPerformanceFileCID (env.cidString z0)] })
    (0 + 1)
    { primaryCid := none,
      out := (CidMap.set [] (Base (performancePath env w)) c0).set
        (Base (compressedPath (performancePath env w))) z0 } h
  rw [run_of_second_error h0 h1]
  exact ⟨rfl, rfl, rfl, rfl⟩


/-- C13: `saveJSONArtifacts` has no partial success and no rollback. A run returns an error
(which carries no identifier map) exactly when a step failed. When a step fails for the
performance file, or for the rewards file after the performance file was saved, the run
returns the error of that step and leaves exactly the filesystem, rewards payload and call
log of `FailsAt`: the failing step is the last call, nothing is written after it, and files
written before it hold the bytes written. So, with plain and compressed paths that do not
collide, a run that returns an error wrote a prefix of the files of a full run, each still on
disk but possibly the failed last write. In particular, when persisting the performance file
fails, the run returns that error, writes to no other path and leaves the rewards payload as
it was. -/
theorem failing_step_aborts_run (env : Env) (w : World) :
    ((∀ err, (saveJSONArtifacts env false w).ret ≠ Return.error err) ↔
      ∃ d0 d1 c0 c1, UntrustedSteps env w d0 d1 c0 c1) ∧
    ((∀ err, (saveJSONArtifacts env true w).ret ≠ Return.error err) ↔
      ∃ d0 d1 c0 z0 c1 z1, TrustedSteps env w d0 d1 c0 z0 c1 z1) ∧
    (∀ t err fs' evs,
      FailsAt env t (NewLocalFile Payload.minipoolPerformance (performancePath env w))
        w.fs w.rewardsFile err fs' evs →
      Aborted (saveJSONArtifacts env t w) err fs' w.rewardsFile (w.trace ++ evs)) ∧
    (∀ d0 c0 err fs' evs,
      PlainSaved env w.fs w.rewardsFile
        (NewLocalFile Payload.minipoolPerformance (performancePath env w)) d0 c0 →
      FailsAt env false (NewLocalFile Payload.rewards (rewardsPath env w))
        (w.fs.put (performancePath env w) (some d0))
        (w.rewardsFile.SetMinipoolPerformanceFileCID "---") err fs' evs →
      Aborted (saveJSONArtifacts env false w) err fs'
        (w.rewardsFile.SetMinipoolPerformanceFileCID "---")
        (w.trace ++ [Event.serialize Payload.minipoolPerformance,
          Event.writeFile (performancePath env w) d0,
          Event.setMinipoolPerformanceFileCID "---"] ++ evs)) ∧
    (∀ d0 c0 z0 err fs' evs,
      PlainSaved env w.fs w.rewardsFile
        (NewLocalFile Payload.minipoolPerformance (performancePath env w)) d0 c0 →
      CompressedSaved env w.fs
        (NewLocalFile Payload.minipoolPerformance (performancePath env w)) d0 z0 →
      FailsAt env true (NewLocalFile Payload.rewards (rewardsPath env w))
        ((w.fs.put (performancePath env w) (some d0)).put
          (compressedPath (performancePath env w)) (some (env.encodeAll d0)))
        (w.rewardsFile.SetMinipoolPerformanceFileCID (env.cidString z0)) err fs' evs →
      Aborted (saveJSONArtifacts env true w) err fs'
        (w.rewardsFile.SetMinipoolPerformanceFileCID (env.cidString z0))
        (w.trace ++ [Event.serialize Payload.minipoolPerformance,
          Event.writeFile (performancePath env w) d0,
          Event.serialize Payload.minipoolPerformance,
          Event.writeFile (compressedPath (performancePath env w)) (env.encodeAll d0),
          Event.setMinipoolPerformanceFileCID (env.cidString z0)] ++ evs)) ∧
    (performancePath env w ≠ rewardsPath env w →
      performancePath env w ≠ compressedPath (rewardsPath env w) →
      compressedPath (performancePath env w) ≠ rewardsPath env w →
      ∀ t err, (saveJSONArtifacts env t w).ret = Return.error err →
        ∃ evs, (saveJSONArtifacts env t w).world.trace = w.trace ++ evs ∧
          (writesOf evs).map Prod.fst <+:
            (if t then [performancePath env w, compressedPath (performancePath env w),
                rewardsPath env w, compressedPath (rewardsPath env w)]
              else [performancePath env w, rewardsPath env w]) ∧
          (∀ q, q ∉ (writesOf evs).map Prod.fst →
            (saveJSONArtifacts env t w).world.fs q = w.fs q) ∧
          (∀ p d, (p, d) ∈ writesOf evs →
            (saveJSONArtifacts env t w).world.fs p = some d ∨
            ∃ pre, evs = pre ++ [Event.writeFile p d])) ∧
    (∀ t e,
      ((NewLocalFile Payload.minipoolPerformance (performancePath env w)).Write env w).1
        = Except.error e →
      (saveJSONArtifacts env t w).ret
        = Return.error ("error saving " ++ performancePath env w ++ ": " ++ e) ∧
      (saveJSONArtifacts env t w).world.rewardsFile = w.rewardsFile ∧
      (∀ q, q ≠ performancePath env w → (saveJSONArtifacts env t w).world.fs q = w.fs q) ∧
      (∀ p d, (p, d) ∈ writesOf ((saveJSONArtifacts env t w).world.trace.drop w.trace.length) →
        p = performancePath env w)) := by
  refine ⟨⟨untrusted_steps, fun ⟨_, _, _, _, h⟩ => no_error_of_untrusted_steps h⟩,
    ⟨trusted_steps, fun ⟨_, _, _, _, _, _, h⟩ => no_error_of_trusted_steps h⟩,
    fun _ _ _ _ h => aborted_of_first_FailsAt h,
    fun _ _ _ _ _ hp0 h => aborted_of_second_FailsAt_untrusted hp0 h,
    fun _ _ _ _ _ _ hp0 hz0 h => aborted_of_second_FailsAt_trusted hp0 hz0 h,
    fun hp h03 h12 t err h => error_run_effect env t w err h hp h03 h12, ?_⟩
  intro t e he
  rw [run_of_failed_performance_write env t w e he]
  obtain ⟨hr, hfs, hwr⟩ := Write_effect env
    (NewLocalFile Payload.minipoolPerformance (performancePath env w)) w
  exact ⟨rfl, hr, hfs, hwr⟩

theorem failing_step_aborts_run_witness :
    (PlainSaved fullDiskEnv sampleWorld.fs sampleWorld.rewardsFile
        (NewLocalFile Payload.minipoolPerformance (performancePath fullDiskEnv sampleWorld))
        [1, 2] ⟨"perf.json:bc"⟩ ∧
      CompressedSaved fullDiskEnv sampleWorld.fs
        (NewLocalFile Payload.minipoolPerformance (performancePath fullDiskEnv sampleWorld))
        [1, 2] ⟨"perf.json.zst:abc"⟩ ∧
      fullDiskEnv.osWriteFile
        ((sampleWorld.fs.put (performancePath fullDiskEnv sampleWorld) (some [1, 2])).put
          (compressedPath (performancePath fullDiskEnv sampleWorld))
          (some (fullDiskEnv.encodeAll [1, 2])))
        (rewardsPath fullDiskEnv sampleWorld)
        [5, 112, 101, 114, 102, 46, 106, 115, 111, 110, 46, 122, 115, 116, 58, 97, 98, 99, 7]
        = WriteOutcome.failed "no space left on device" (some [])) ∧
    Aborted (saveJSONArtifacts fullDiskEnv true sampleWorld)
      ("error saving data/rewards.json: " ++
        ("error writing file to data/rewards.json: " ++ "no space left on device"))
      (((sampleWorld.fs.put "data/perf.json" (some [1, 2])).put "data/perf.json.zst"
        (some [0, 1, 2])).put "data/rewards.json" (some []))
      (sampleWorld.rewardsFile.SetMinipoolPerformanceFileCID "perf.json.zst:abc")
      (sampleWorld.trace ++ [Event.serialize Payload.minipoolPerformance,
        Event.writeFile "data/perf.json" [1, 2],
        Event.serialize Payload.minipoolPerformance,
        Event.writeFile "data/perf.json.zst" [0, 1, 2],
        Event.setMinipoolPerformanceFileCID "perf.json.zst:abc"] ++
        [Event.serialize Payload.rewards,
         Event.writeFile "data/rewards.json"
           [5, 112, 101, 114, 102, 46, 106, 115, 111, 110, 46, 122, 115, 116, 58, 97, 98, 99,
            7]]) ∧
    Aborted (saveJSONArtifacts brokenCidEnv true sampleWorld)
      ("error calculating cid for saved file data/perf.json: " ++ "encoding failed")
      (sampleWorld.fs.put "data/perf.json" (some [1, 2]))
      sampleWorld.rewardsFile
      (sampleWorld.trace ++ [Event.serialize Payload.minipoolPerformance,
        Event.writeFile "data/perf.json" [1, 2]]) :=
  ⟨⟨⟨rfl, rfl, rfl⟩, ⟨rfl, rfl⟩, rfl⟩,
   (failing_step_aborts_run fullDiskEnv sampleWorld).2.2.2.2.1 [1, 2] ⟨"perf.json:bc"⟩
     ⟨"perf.json.zst:abc"⟩ _ _ _ ⟨rfl, rfl, rfl⟩ ⟨rfl, rfl⟩
     (FailsAt.write
       [5, 112, 101, 114, 102, 46, 106, 115, 111, 110, 46, 122, 115, 116, 58, 97, 98, 99, 7]
       "no space left on device" (some []) rfl rfl),
   (failing_step_aborts_run brokenCidEnv sampleWorld).2.2.1 true _ _ _
     (FailsAt.cid [1, 2] "encoding failed" rfl rfl rfl)⟩

end Rewards

namespace Cli

/-! ## The claims about the validation helpers -/

/-- C16: `ValidateBool` succeeds exactly when the lower-cased value is one of `true`, `yes`,
`false`, `no`; on success it returns true exactly when the lower-cased value is `true` or
`yes`, and on failure it returns false together with the error. -/
theorem ValidateBool_spec (toLower : String → String) (name value : String) :
    ((ValidateBool toLower name value).2 = none ↔
      toLower value = "true" ∨ toLower value = "yes" ∨ toLower value = "false" ∨
        toLower value = "no") ∧
    ((ValidateBool toLower name value).2 = none →
      ((ValidateBool toLower name value).1 = true ↔
        toLower value = "true" ∨ toLower value = "yes")) ∧
    ((ValidateBool toLower name value).2 ≠ none →
      (ValidateBool toLower name value).1 = false ∧
      (ValidateBool toLower name value).2 = some ("Invalid " ++ name ++ " '" ++ value ++
        "' - valid values are 'true', 'yes', 'false' and 'no'")) := by
  unfold ValidateBool
  by_cases h1 : toLower value = "true"
  · simp [h1]
  · by_cases h2 : toLower value = "yes"
    · simp [h2]
    · by_cases h3 : toLower value = "false"
      · simp [h3]
      · by_cases h4 : toLower value = "no"
        · simp [h4]
        · simp [h1, h2, h3, h4]

theorem ValidateBool_spec_witness :
    ValidateBool asciiToLower "flag" "YES" = (true, none) ∧
    ValidateBool asciiToLower "flag" "No" = (false, none) ∧
    (ValidateBool asciiToLower "flag" "maybe").2 ≠ none ∧
    (asciiToLower "YES" = "true" ∨ asciiToLower "YES" = "yes" ∨ asciiToLower "YES" = "false" ∨
      asciiToLower "YES" = "no") :=
  ⟨by decide, by decide, by decide,
   (ValidateBool_spec asciiToLower "flag" "YES").1.mp (by decide)⟩

theorem charDigit_digitChar (d : Nat) (h : d < 10) : (Nat.digitChar d).toNat - 48 = d := by
  interval_cases d <;> rfl

theorem map_digitChar_injective {l1 l2 : List Nat} (h1 : ∀ d ∈ l1, d < 10)
    (h2 : ∀ d ∈ l2, d < 10) (h : l1.map Nat.digitChar = l2.map Nat.digitChar) : l1 = l2 := by
  have key : ∀ l : List Nat, (∀ d ∈ l, d < 10) →
      (l.map Nat.digitChar).map (fun c => c.toNat - 48) = l := by
    intro l hl
    rw [List.map_map]
    conv_rhs => rw [← List.map_id l]
    apply List.map_congr_left
    intro d hd
    simpa using charDigit_digitChar d (hl d hd)
  rw [← key l1 h1, ← key l2 h2, h]

theorem natString_injective {n m : Nat} (h : natString n = natString m) : n = m := by
  have hlt : ∀ k, ∀ d ∈ (Nat.digits 10 k).reverse, d < 10 := by
    intro k d hd
    exact Nat.digits_lt_base (by norm_num) (List.mem_reverse.mp hd)
  have hzero : ∀ k, k ≠ 0 → ['0'] ≠ (Nat.digits 10 k).reverse.map Nat.digitChar := by
    intro k hk h0
    have h0' : [0].map Nat.digitChar = (Nat.digits 10 k).reverse.map Nat.digitChar := by
      simpa using h0
    have := map_digitChar_injective (by simp) (hlt k) h0'
    have hd : Nat.digits 10 k = [0] := by
      have := congrArg List.reverse this
      simpa using this.symm
    have hl := Nat.getLast_digit_ne_zero 10 hk
    simp [hd] at hl
  unfold natString at h
  by_cases hn : n = 0
  · by_cases hm : m = 0
    · rw [hn, hm]
    · simp only [hn, if_true, hm, if_false] at h
      exact absurd h (hzero m hm)
  · by_cases hm : m = 0
    · simp only [hn, if_false, hm, if_true] at h
      exact absurd h.symm (hzero n hn)
    · simp only [hn, hm, if_false] at h
      have := map_digitChar_injective (hlt n) (hlt m) h
      exact Nat.digits_inj_iff.mp (List.reverse_injective this)

theorem natString_ne_minus (n : Nat) (cs : List Char) : natString n ≠ '-' :: cs := by
  unfold natString
  by_cases hn : n = 0
  · simp [hn]
  · simp only [hn, if_false]
    intro h
    have hne : Nat.digits 10 n ≠ [] := Nat.digits_ne_nil_iff_ne_zero.mpr hn
    obtain ⟨d, rest, hd⟩ : ∃ d rest, (Nat.digits 10 n).reverse = d :: rest := by
      cases hr : (Nat.digits 10 n).reverse with
      | nil => exact absurd (List.reverse_eq_nil_iff.mp hr) hne
      | cons d rest => exact ⟨d, rest, rfl⟩
    rw [hd] at h
    simp only [List.map_cons, List.cons.injEq] at h
    have hlt : d < 10 := by
      apply Nat.digits_lt_base (by norm_num : 1 < 10) (m := n)
      rw [← List.mem_reverse, hd]
      simp
    have := charDigit_digitChar d hlt
    rw [h.1] at this
    have h45 : ('-' : Char).toNat - 48 = 0 := by decide
    rw [h45] at this
    subst this
    exact absurd h.1 (by decide)

theorem bigString_eq_iff (z : Int) (N : Nat) (s : String) (hs : s = String.mk (natString N)) :
    bigString z = s ↔ z = (N : Int) := by
  subst hs
  cases z with
  | ofNat n =>
    simp only [bigString, Int.ofNat_eq_coe, Nat.cast_inj]
    constructor
    · intro h
      exact natString_injective (congrArg String.data h)
    · intro h
      rw [h]
  | negSucc n =>
    simp only [bigString]
    constructor
    · intro h
      exact absurd (congrArg String.data h).symm (natString_ne_minus N _)
    · intro h
      have hneg := Int.negSucc_lt_zero n
      rw [h] at hneg
      omega

theorem natString_16 : natString 16000000000000000000 = "16000000000000000000".data := by
  simp [natString]
  decide

theorem natString_32 : natString 32000000000000000000 = "32000000000000000000".data := by
  simp [natString]
  decide

theorem bigString_zero (z : Int) : bigString z = "0" ↔ z = 0 := by
  have := bigString_eq_iff z 0 "0" (by decide)
  simpa using this

theorem bigString_16 (z : Int) : bigString z = "16000000000000000000" ↔ z = 16 * 10 ^ 18 := by
  have := bigString_eq_iff z 16000000000000000000 "16000000000000000000"
    (by rw [natString_16])
  rw [this]
  norm_num

theorem bigString_32 (z : Int) : bigString z = "32000000000000000000" ↔ z = 32 * 10 ^ 18 := by
  have := bigString_eq_iff z 32000000000000000000 "32000000000000000000"
    (by rw [natString_32])
  rw [this]
  norm_num

/-- C17: `ValidateDepositWeiAmount` succeeds exactly when the value parses as a base-10 integer
that is 0, 16 ether or 32 ether in wei, and then returns that integer; every other integer
that parses, negative ones included, and every string that does not parse is rejected. -/
theorem ValidateDepositWeiAmount_spec (name value : String) :
    (∀ z, ValidateDepositWeiAmount name value = Except.ok z ↔
      SetString value = some z ∧ (z = 0 ∨ z = 16 * 10 ^ 18 ∨ z = 32 * 10 ^ 18)) ∧
    (∀ z, SetString value = some z → z ≠ 0 → z ≠ 16 * 10 ^ 18 → z ≠ 32 * 10 ^ 18 →
      ValidateDepositWeiAmount name value = Except.error ("Invalid " ++ name ++ " '" ++ value
        ++ "' - valid values are 0, 16 and 32 ether")) ∧
    (SetString value = none →
      ValidateDepositWeiAmount name value
        = Except.error ("Invalid " ++ name ++ " '" ++ value ++ "'")) := by
  have e16 : "16" ++ String.mk (List.replicate 18 '0') = "16000000000000000000" := by decide
  have e32 : "32" ++ String.mk (List.replicate 18 '0') = "32000000000000000000" := by decide
  unfold ValidateDepositWeiAmount ValidateWeiAmount
  cases hS : SetString value with
  | none => simp
  | some val =>
    simp only [e16, e32]
    by_cases hv : val = 0 ∨ val = 16 * 10 ^ 18 ∨ val = 32 * 10 ^ 18
    · have hcond : (!(bigString val == "0" || bigString val == "16000000000000000000"
          || bigString val == "32000000000000000000")) = false := by
        rw [Bool.not_eq_false', Bool.or_eq_true, Bool.or_eq_true, beq_iff_eq, beq_iff_eq,
          beq_iff_eq, bigString_zero, bigString_16, bigString_32, or_assoc]
        exact hv
      simp only [hcond, Bool.false_eq_true, if_false, Except.ok.injEq, Option.some.injEq,
        reduceCtorEq, false_implies, and_true]
      refine ⟨fun z => ⟨fun h => ⟨h, h ▸ hv⟩, fun h => h.1⟩, ?_⟩
      intro z hz h0 h16 h32
      subst hz
      rcases hv with h | h | h
      · exact absurd h h0
      · exact absurd h h16
      · exact absurd h h32
    · have hcond : (!(bigString val == "0" || bigString val == "16000000000000000000"
          || bigString val == "32000000000000000000")) = true := by
        rw [Bool.not_eq_true', Bool.or_eq_false_iff, Bool.or_eq_false_iff, beq_eq_false_iff_ne,
          beq_eq_false_iff_ne, beq_eq_false_iff_ne, Ne, Ne, Ne, bigString_zero, bigString_16,
          bigString_32]
        exact ⟨⟨fun h => hv (Or.inl h), fun h => hv (Or.inr (Or.inl h))⟩,
          fun h => hv (Or.inr (Or.inr h))⟩
      simp only [hcond, if_true, reduceCtorEq, false_iff, not_and, Option.some.injEq,
        false_implies, and_true]
      refine ⟨fun z hz => hz ▸ hv, fun _ _ _ _ _ => trivial⟩

theorem ValidateDepositWeiAmount_spec_witness :
    ValidateDepositWeiAmount "amount" "16000000000000000000" = Except.ok (16 * 10 ^ 18) ∧
    ValidateDepositWeiAmount "amount" "-0" = Except.ok 0 ∧
    ValidateDepositWeiAmount "amount" "-16000000000000000000"
      = Except.error ("Invalid " ++ "amount" ++ " '" ++ "-16000000000000000000"
        ++ "' - valid values are 0, 16 and 32 ether") ∧
    ValidateDepositWeiAmount "amount" "1.5"
      = Except.error ("Invalid " ++ "amount" ++ " '" ++ "1.5" ++ "'") :=
  ⟨((ValidateDepositWeiAmount_spec "amount" "16000000000000000000").1 (16 * 10 ^ 18)).mpr
      ⟨by decide, Or.inr (Or.inl rfl)⟩,
   ((ValidateDepositWeiAmount_spec "amount" "-0").1 0).mpr ⟨by decide, Or.inl rfl⟩,
   (ValidateDepositWeiAmount_spec "amount" "-16000000000000000000").2.1
      (-16000000000000000000) (by decide) (by decide) (by decide) (by decide),
   (ValidateDepositWeiAmount_spec "amount" "1.5").2.2 (by decide)⟩

theorem prefix_head_not {p : Char → Bool} {a b : List Char} (hp : a <+: b)
    (hb : ∀ hl : 0 < b.length, ¬p (b.get ⟨0, hl⟩)) :
    ∀ hl : 0 < a.length, ¬p (a.get ⟨0, hl⟩) := by
  intro hl
  obtain ⟨t, rfl⟩ := hp
  cases a with
  | nil => exact absurd hl (by simp)
  | cons x xs =>
    have := hb (by simp)
    simpa using this

theorem trim_idempotent (l : List Char) :
    (((l.dropWhile isSpace).rdropWhile isSpace).dropWhile isSpace).rdropWhile isSpace
      = (l.dropWhile isSpace).rdropWhile isSpace := by
  have hdrop : ((l.dropWhile isSpace).rdropWhile isSpace).dropWhile isSpace
      = (l.dropWhile isSpace).rdropWhile isSpace := by
    rw [List.dropWhile_eq_self_iff]
    exact prefix_head_not (List.rdropWhile_prefix isSpace (l.dropWhile isSpace))
      (fun hl => List.dropWhile_get_zero_not isSpace l hl)
  rw [hdrop, List.rdropWhile_idempotent]

theorem TrimSpace_idempotent (s : String) : TrimSpace (TrimSpace s) = TrimSpace s := by
  simp only [TrimSpace]
  rw [trim_idempotent]

/-- C20: `ValidateDAOMemberID` succeeds exactly when the value without its leading and trailing
white space is at least `MinDAOMemberIDLength` (3) bytes long; it then returns the trimmed
value, and validating a returned value again, under any name, succeeds and returns it
unchanged. -/
theorem ValidateDAOMemberID_spec (name value : String) :
    ((ValidateDAOMemberID name value).2 = none ↔
      MinDAOMemberIDLength ≤ (TrimSpace value).utf8ByteSize) ∧
    MinDAOMemberIDLength = 3 ∧
    ((ValidateDAOMemberID name value).2 = none →
      (ValidateDAOMemberID name value).1 = TrimSpace value ∧
      ∀ name2, ValidateDAOMemberID name2 (ValidateDAOMemberID name value).1
        = ((ValidateDAOMemberID name value).1, none)) ∧
    ((ValidateDAOMemberID name value).2 ≠ none → (ValidateDAOMemberID name value).1 = "") := by
  unfold ValidateDAOMemberID
  by_cases h : (TrimSpace value).utf8ByteSize < MinDAOMemberIDLength
  · simp only [h, if_true, reduceCtorEq, false_iff, not_le, false_implies, ne_eq,
      not_false_eq_true, true_implies, and_true, true_and]
    exact rfl
  · simp only [h, if_false, true_iff, not_lt.mp h, true_implies, ne_eq, not_true_eq_false,
      false_implies, and_true, true_and]
    refine ⟨rfl, fun name2 => ?_⟩
    rw [TrimSpace_idempotent]
    simp [h]

theorem ValidateDAOMemberID_spec_witness :
    ValidateDAOMemberID "member ID" "  rocket-pool  " = ("rocket-pool", none) ∧
    ValidateDAOMemberID "member ID" "rocket-pool" = ("rocket-pool", none) ∧
    (ValidateDAOMemberID "member ID" "   ab ").2 ≠ none ∧
    MinDAOMemberIDLength ≤ (TrimSpace "  rocket-pool  ").utf8ByteSize :=
  ⟨by decide, by decide, by decide,
   (ValidateDAOMemberID_spec "member ID" "  rocket-pool  ").1.mp (by decide)⟩

end Cli
